import Mathlib

/-!
# Verification of the spreadsheet synchronization engine

Shallow embedding of the tyre-system spreadsheet engine
(`backend/app/excel/{config,reader,writer,mapper,sync}.py`) and proofs of
the specification claims about it.

Modelling conventions:
* An Excel cell value is `CellValue`: empty (`none`), numeric (`num`, with
  Python ints/floats modelled as exact rationals), text (`str`), or a
  date/datetime object (`date`, carrying its proleptic-Gregorian ordinal).
* A worksheet is a total function from (row, column) to `CellValue`
  together with openpyxl's `max_row` bound; a workbook is an ordered list
  of named sheets; the filesystem state `FS` is the main workbook plus the
  list of backup snapshots in the sibling `backups` directory (the
  timestamp in a backup's file name is irrelevant to every claim, so a
  backup is modelled as a snapshot of the workbook contents).
* A Python function that can raise is embedded as `Except String α`; for a
  writer operation the pair `FS × Except String α` records the filesystem
  after the call: the workbook on disk is only replaced when `wb.save` is
  reached, i.e. in the `.ok` branches.
-/

set_option linter.unusedVariables false

namespace TradeSystem

/-! ## Cell values and Python-style coercions (`reader.py` helpers) -/

/-- A spreadsheet cell value as seen through openpyxl. -/
inductive CellValue where
  | none : CellValue
  | num  : ℚ → CellValue
  | str  : String → CellValue
  | date : ℤ → CellValue
  deriving DecidableEq

/-- Python `c.isspace()`-style whitespace test used by `str.strip()`. -/
def pyIsSpace (c : Char) : Bool := c.isWhitespace

/-- `str.strip()` on a character list: drop whitespace from both ends. -/
def stripChars (l : List Char) : List Char :=
  ((l.dropWhile pyIsSpace).reverse.dropWhile pyIsSpace).reverse

/-- ASCII lower-casing of one character (Python `str.lower()` restricted to
ASCII, which covers every string these files contain). -/
def lowerChar (c : Char) : Char :=
  match c with
  | 'A' => 'a' | 'B' => 'b' | 'C' => 'c' | 'D' => 'd' | 'E' => 'e'
  | 'F' => 'f' | 'G' => 'g' | 'H' => 'h' | 'I' => 'i' | 'J' => 'j'
  | 'K' => 'k' | 'L' => 'l' | 'M' => 'm' | 'N' => 'n' | 'O' => 'o'
  | 'P' => 'p' | 'Q' => 'q' | 'R' => 'r' | 'S' => 's' | 'T' => 't'
  | 'U' => 'u' | 'V' => 'v' | 'W' => 'w' | 'X' => 'x' | 'Y' => 'y'
  | 'Z' => 'z'
  | c => c

/-- `str.lower()` (ASCII model). -/
def lowerChars (l : List Char) : List Char := l.map lowerChar

/-- String-level `strip()`. -/
def pyStrip (s : String) : String := ⟨stripChars s.data⟩

/-- String-level `lower()`. -/
def pyLower (s : String) : String := ⟨lowerChars s.data⟩

/-- Digit-list value, most significant first. -/
def natOfDigits (l : List Char) : ℕ :=
  l.foldl (fun n c => 10 * n + (c.toNat - 48)) 0

/-- Python `float(str)` on the decimal forms appearing in these files:
optional sign, digits with an optional single decimal point (exponent,
`inf` and `nan` spellings are not modelled; they never occur in the data
handled by the engine and fall through to `Option.none` = "raises"). -/
def pyFloatChars (l : List Char) : Option ℚ :=
  let (sign, body) :=
    match l with
    | '+' :: rest => ((1 : ℚ), rest)
    | '-' :: rest => ((-1 : ℚ), rest)
    | _ => ((1 : ℚ), l)
  match body.splitOn '.' with
  | [intPart] =>
      if intPart ≠ [] ∧ intPart.all Char.isDigit then
        some (sign * natOfDigits intPart)
      else Option.none
  | [intPart, fracPart] =>
      if (intPart ++ fracPart) ≠ [] ∧ (intPart ++ fracPart).all Char.isDigit then
        some (sign * (natOfDigits intPart + natOfDigits fracPart / 10 ^ fracPart.length))
      else Option.none
  | _ => Option.none

/-- Python `float(s)` for a string (after `strip`, which `float` performs). -/
def pyFloatOfString (s : String) : Option ℚ := pyFloatChars (stripChars s.data)

/-- Python `float(value)` on a cell value; `Option.none` models a raised
`ValueError`/`TypeError` (dates and unparsable strings). -/
def cellFloat (v : CellValue) : Option ℚ :=
  match v with
  | .none => Option.none
  | .num q => some q
  | .str s => pyFloatOfString s
  | .date _ => Option.none

/-- Truncation toward zero, Python `int(float)`. -/
def ratTrunc (q : ℚ) : ℤ := if q < 0 then -(⌊-q⌋) else ⌊q⌋

/-- `reader._to_float`: lenient coercion of a cell to float. -/
def toFloat (v : CellValue) (default : ℚ) : ℚ :=
  match v with
  | .none => default
  | v => match cellFloat v with
         | some q => q
         | Option.none => default

/-- `reader._to_int`: lenient coercion of a cell to int (`int(float(v))`). -/
def toInt (v : CellValue) (default : ℤ) : ℤ :=
  match v with
  | .none => default
  | v => match cellFloat v with
         | some q => ratTrunc q
         | Option.none => default

/-- Display form of a numeric cell under Python `str()`.  No claim depends
on the exact rendering of numbers or dates as text; it only matters that
the result is a string (never equal to the sentinel labels compared
against, which are matched on concrete text cells in every claim). -/
def numDisplay (q : ℚ) : String := toString q

/-- Display form of a date cell under Python `str()`. -/
def dateDisplay (n : ℤ) : String := "<datetime " ++ toString n ++ ">"

/-- `reader._to_str`: `str(value).strip() or None`. -/
def toStr (v : CellValue) : Option String :=
  match v with
  | .none => Option.none
  | .str s => let t := pyStrip s; if t = "" then Option.none else some t
  | .num q => let t := pyStrip (numDisplay q); if t = "" then Option.none else some t
  | .date n => let t := pyStrip (dateDisplay n); if t = "" then Option.none else some t

/-! ### Dates (`reader._excel_date_to_date`) -/

/-- A Python `datetime.date`, identified by its proleptic-Gregorian
ordinal (`datetime.date.toordinal`). -/
structure PyDate where
  ordinal : ℤ
  deriving DecidableEq

/-- Gregorian leap-year test. -/
def isLeapYear (y : ℤ) : Bool := (y % 4 = 0 ∧ y % 100 ≠ 0) ∨ y % 400 = 0

/-- Days before the start of month `m` (1-indexed) in a non-leap year. -/
def daysBeforeMonth (m : ℕ) : ℕ :=
  [0, 0, 31, 59, 90, 120, 151, 181, 212, 243, 273, 304, 334].getD m 0

/-- Proleptic-Gregorian ordinal of a (year, month, day) triple
(`datetime.date(y, m, d).toordinal()`). -/
def gregorianOrdinal (y m d : ℕ) : ℤ :=
  let yp : ℤ := (y : ℤ) - 1
  365 * yp + yp / 4 - yp / 100 + yp / 400 + daysBeforeMonth m
    + (if 2 < m ∧ isLeapYear y then 1 else 0) + d

/-- Ordinal of 1899-12-30, the Excel serial-date epoch. -/
def excelEpochOrdinal : ℤ := gregorianOrdinal 1899 12 30

/-- Largest ordinal `datetime.date` accepts (year 9999). -/
def maxDateOrdinal : ℤ := 3652059

/-- Prefix match of the legacy `"YYYY.M.D"` pattern
(`re.match` of `(\d{4})\.(\d{1,2})\.(\d{1,2})`): four digits, a dot,
one or two digits, a dot, one or two digits; the rest of the string is
unconstrained, exactly as an unanchored-at-the-end `re.match`. -/
def matchLegacyDate (l : List Char) : Option (ℕ × ℕ × ℕ) :=
  match l with
  | y1 :: y2 :: y3 :: y4 :: '.' :: rest =>
      if (y1.isDigit ∧ y2.isDigit ∧ y3.isDigit ∧ y4.isDigit) then
        let y := natOfDigits [y1, y2, y3, y4]
        match rest with
        | m1 :: m2 :: '.' :: rest2 =>
            if m1.isDigit ∧ m2.isDigit then
              matchDay y (natOfDigits [m1, m2]) rest2
            else if m1.isDigit ∧ m2 = '.' then
              -- one-digit month: `m2` was actually the dot
              matchDay y (natOfDigits [m1]) (m2 :: rest2).tail
            else Option.none
        | m1 :: '.' :: rest2 =>
            if m1.isDigit then matchDay y (natOfDigits [m1]) rest2 else Option.none
        | _ => Option.none
      else Option.none
  | _ => Option.none
where
  matchDay (y m : ℕ) (l : List Char) : Option (ℕ × ℕ × ℕ) :=
    match l with
    | d1 :: d2 :: _ =>
        if d1.isDigit ∧ d2.isDigit then some (y, m, natOfDigits [d1, d2])
        else if d1.isDigit then some (y, m, natOfDigits [d1])
        else Option.none
    | [d1] => if d1.isDigit then some (y, m, natOfDigits [d1]) else Option.none
    | [] => Option.none

/-- `reader._excel_date_to_date`: native dates pass through, numbers are
Excel serials from the 1899-12-30 epoch, strings are tried against the
legacy `"YYYY.M.D"` pattern; anything else (and any out-of-range or
invalid result) is `Option.none` rather than an error.  The `datetime.date`
constructor's exact month-length validation is modelled by the 1..12 /
1..31 bounds (no claim exercises the difference). -/
def excelDateToDate (v : CellValue) : Option PyDate :=
  match v with
  | .none => Option.none
  | .date n => some ⟨n⟩
  | .num q =>
      let o := excelEpochOrdinal + ratTrunc q
      if 1 ≤ o ∧ o ≤ maxDateOrdinal then some ⟨o⟩ else Option.none
  | .str s =>
      match matchLegacyDate (stripChars s.data) with
      | some (y, m, d) =>
          if 1 ≤ m ∧ m ≤ 12 ∧ 1 ≤ d ∧ d ≤ 31 then
            some ⟨gregorianOrdinal y m d⟩
          else Option.none
      | Option.none => Option.none

/-! ## Sheets, workbooks, filesystem -/

/-- A worksheet: total cell contents plus openpyxl's `max_row`. -/
structure Sheet where
  cells : ℕ × ℕ → CellValue
  maxRow : ℕ

/-- `ws.cell(row, col).value`. -/
def Sheet.cell (ws : Sheet) (r c : ℕ) : CellValue := ws.cells (r, c)

/-- `ws.cell(row, col, value)`: assignment; openpyxl extends `max_row` to
cover every cell that has been materialised. -/
def Sheet.set (ws : Sheet) (r c : ℕ) (v : CellValue) : Sheet :=
  ⟨fun p => if p = (r, c) then v else ws.cells p, max ws.maxRow r⟩

/-- `ws.delete_rows(idx, amount)`: rows shift up, `max_row` shrinks. -/
def Sheet.deleteRows (ws : Sheet) (idx amount : ℕ) : Sheet :=
  ⟨fun p => if p.1 < idx then ws.cells p else ws.cells (p.1 + amount, p.2),
   ws.maxRow - amount⟩

/-- A workbook: sheets in order, addressed by title. -/
abbrev Workbook := List (String × Sheet)

/-- `wb.sheetnames`. -/
def Workbook.sheetnames (wb : Workbook) : List String := wb.map (·.1)

/-- `wb[name]`, `Option.none` for a `KeyError`. -/
def Workbook.get? (wb : Workbook) (name : String) : Option Sheet :=
  (List.find? (fun p => p.1 = name) wb).map (·.2)

/-- Replace the sheet stored under `name` (used to model saving a mutated
worksheet object back as part of the workbook). -/
def Workbook.setSheet (wb : Workbook) (name : String) (ws : Sheet) : Workbook :=
  wb.map (fun p => if p.1 = name then (name, ws) else p)

/-- The filesystem as the writer sees it: the target workbook file and the
snapshots accumulated in the sibling `backups` directory (most recent
first). -/
structure FS where
  main : Workbook
  backups : List Workbook

/-! ## `config.py` -/

/-- Formula columns that must never be overwritten (1-indexed):
G=7, H=8, I=9, J=10, K=11. -/
def FORMULA_COLUMNS : Finset ℕ := {7, 8, 9, 10, 11}

/-- Data row range (row 1 = headers). -/
def DATA_START_ROW : ℕ := 2

/-- Last data row (row 47 = "Total", 48-50 extras, 51 = grand total). -/
def DATA_END_ROW : ℕ := 51

/-- `"月"`, the localized month glyph in inventory sheet names. -/
def MONTH_CHAR : String := "月"

/-- `get_sheet_name`: `"Tyre List_{month}月"`. -/
def get_sheet_name (month : ℕ) : String :=
  "Tyre List_" ++ toString month ++ MONTH_CHAR

/-- Months that use the OLD layout (rate in M2). -/
def OLD_LAYOUT_MONTHS : Finset ℕ := {8, 9, 10}

/-- Column layout for inventory sheets. -/
structure SheetLayout where
  exchange_rate_row : ℕ
  exchange_rate_col : ℕ
  initial_stock_col : ℕ
  added_stock_col : ℕ
  daily_start_col : ℕ
  daily_end_col : ℕ
  deriving DecidableEq

/-- `SheetLayout.day_to_col`: raises unless the day is in 1..31. -/
def SheetLayout.day_to_col (l : SheetLayout) (day : ℕ) : Except String ℕ :=
  if 1 ≤ day ∧ day ≤ 31 then .ok (l.daily_start_col + day - 1)
  else .error ("Day must be 1-31, got " ++ toString day)

/-- NEW layout: months 1, 11, 12 (and future months). -/
def NEW_LAYOUT : SheetLayout :=
  { exchange_rate_row := 54
    exchange_rate_col := 9
    initial_stock_col := 13
    added_stock_col := 14
    daily_start_col := 15
    daily_end_col := 45 }

/-- OLD layout: months 8, 9, 10. -/
def OLD_LAYOUT : SheetLayout :=
  { exchange_rate_row := 2
    exchange_rate_col := 13
    initial_stock_col := 14
    added_stock_col := 15
    daily_start_col := 16
    daily_end_col := 46 }

/-- `get_layout`: the correct layout for a given month. -/
def get_layout (month : ℕ) : SheetLayout :=
  if month ∈ OLD_LAYOUT_MONTHS then OLD_LAYOUT else NEW_LAYOUT

/-- The columns a layout designates as writable: the two stock columns and
the 31-day daily-sales block. -/
def SheetLayout.writableCols (l : SheetLayout) : Finset ℕ :=
  {l.initial_stock_col, l.added_stock_col} ∪
    Finset.Icc l.daily_start_col l.daily_end_col

/-! ## C3: layout resolver invariants -/

/-- **C3.** For every period 1..12, `get_layout` returns a layout whose
writable column set (initial stock, added stock, and the daily block) is
disjoint from `FORMULA_COLUMNS`, and it selects `OLD_LAYOUT` exactly for
periods 8, 9, 10 and `NEW_LAYOUT` otherwise.  (`get_layout` is a plain
function of the period, so determinism and purity are inherent in the
embedding.) -/
theorem get_layout_writable_disjoint_and_selection (p : ℕ)
    (h1 : 1 ≤ p) (h2 : p ≤ 12) :
    (get_layout p).writableCols ∩ FORMULA_COLUMNS = ∅ ∧
    (get_layout p = OLD_LAYOUT ↔ (p = 8 ∨ p = 9 ∨ p = 10)) ∧
    (get_layout p = NEW_LAYOUT ↔ ¬(p = 8 ∨ p = 9 ∨ p = 10)) := by
  interval_cases p <;> exact ⟨by decide, by decide, by decide⟩

/-- Concrete instantiations of C3 at an OLD-layout and a NEW-layout
period. -/
theorem get_layout_writable_disjoint_witness :
    ((get_layout 9).writableCols ∩ FORMULA_COLUMNS = ∅ ∧
      (get_layout 9 = OLD_LAYOUT ↔ (9 = 8 ∨ 9 = 9 ∨ 9 = 10)) ∧
      (get_layout 9 = NEW_LAYOUT ↔ ¬(9 = 8 ∨ 9 = 9 ∨ 9 = 10))) ∧
    ((get_layout 5).writableCols ∩ FORMULA_COLUMNS = ∅ ∧
      (get_layout 5 = OLD_LAYOUT ↔ (5 = 8 ∨ 5 = 9 ∨ 5 = 10)) ∧
      (get_layout 5 = NEW_LAYOUT ↔ ¬(5 = 8 ∨ 5 = 9 ∨ 5 = 10))) :=
  ⟨get_layout_writable_disjoint_and_selection 9 (by decide) (by decide),
   get_layout_writable_disjoint_and_selection 5 (by decide) (by decide)⟩

/-! ## Invoice sheet constants (`config.py`) -/

def INVOICE_SALES_SHEET : String := "Sales Record"
def INVOICE_PAYMENTS_SHEET : String := "Payment Record"
def INVOICE_LOSS_SHEET : String := "Loss"
def INVOICE_STATS_SHEET : String := "Statistic"
def INVOICE_OLD_CASH_SHEET : String := "Cash"
def INVOICE_OLD_MUKURU_SHEET : String := "Mukuru"

def INV_SALES_DATE_COL : ℕ := 1
def INV_SALES_BRAND_COL : ℕ := 2
def INV_SALES_TYPE_COL : ℕ := 3
def INV_SALES_SIZE_COL : ℕ := 4
def INV_SALES_QTY_COL : ℕ := 5
def INV_SALES_PRICE_COL : ℕ := 6
def INV_SALES_DISCOUNT_COL : ℕ := 7
def INV_SALES_TOTAL_COL : ℕ := 8
def INV_SALES_PAYMENT_COL : ℕ := 9
def INV_SALES_CUSTOMER_COL : ℕ := 10

def INV_PAY_DATE_COL : ℕ := 1
def INV_PAY_CUSTOMER_COL : ℕ := 2
def INV_PAY_METHOD_COL : ℕ := 3
def INV_PAY_AMOUNT_COL : ℕ := 4

/-- `openpyxl.utils.get_column_letter`, for the single-letter columns the
engine passes to it. -/
def get_column_letter (n : ℕ) : String :=
  if 1 ≤ n ∧ n ≤ 26 then String.singleton (Char.ofNat (64 + n)) else "?"

/-! ## `writer.py` -/

/-- The protection error raised by `_safe_write` (the column letter of the
original message is folded into the index; only the fact that a distinct
`ValueError` is raised matters to the claims). -/
def formulaViolationMsg (c : ℕ) : String :=
  "REFUSED: Column " ++ get_column_letter c ++ " (index " ++ toString c ++
    ") is a formula column. Writing to formula columns [7, 8, 9, 10, 11] is forbidden."

/-- `writer._safe_write`: write a value to a cell, raising `ValueError` if
the column is one of the formula columns. -/
def safe_write (ws : Sheet) (r c : ℕ) (v : CellValue) : Except String Sheet :=
  if c ∈ FORMULA_COLUMNS then .error (formulaViolationMsg c)
  else .ok (ws.set r c v)

/-- `writer._create_backup`: copy the current file into the sibling
`backups` directory (modelled as pushing a snapshot). -/
def create_backup (fs : FS) : FS := ⟨fs.main, fs.main :: fs.backups⟩

/-- `wb[name]` raising `KeyError`. -/
def keyErrorMsg (name : String) : String := "KeyError: " ++ name

/-- One element of the `sales` argument of `write_daily_sales` /
`export_inventory_batch`: a dict with `row` and `qty`. -/
structure SaleEntry where
  row : ℕ
  qty : ℤ
  deriving DecidableEq

/-- One element of the `stock_data` argument of `export_inventory_batch`:
a dict with `row`, `initial_stock`, `added_stock`. -/
structure StockEntry where
  row : ℕ
  initial_stock : ℤ
  added_stock : ℤ
  deriving DecidableEq

/-- The cell value written for a daily quantity: `qty if qty else None`. -/
def qtyCell (qty : ℤ) : CellValue :=
  if qty = 0 then .none else .num (qty : ℚ)

/-- The per-sale loop body of `write_daily_sales` (and of the daily part
of `export_inventory_batch`): `_safe_write(ws, row, col, qty or None)`. -/
def writeSalesFold (col : ℕ) (sales : List SaleEntry) (ws : Sheet) :
    Except String Sheet :=
  sales.foldlM (fun w s => safe_write w s.row col (qtyCell s.qty)) ws

/-- `ExcelWriter.write_daily_sales`: backup, resolve the day column, open
the month sheet, write every quantity through `_safe_write`, save. -/
def write_daily_sales (fs : FS) (month day : ℕ) (sales : List SaleEntry) :
    FS × Except String Unit :=
  let fs1 := create_backup fs
  match (get_layout month).day_to_col day with
  | .error e => (fs1, .error e)
  | .ok col =>
    match fs1.main.get? (get_sheet_name month) with
    | Option.none => (fs1, .error (keyErrorMsg (get_sheet_name month)))
    | some ws =>
      match writeSalesFold col sales ws with
      | .error e => (fs1, .error e)
      | .ok ws' =>
          (⟨fs1.main.setSheet (get_sheet_name month) ws', fs1.backups⟩, .ok ())

/-- `ExcelWriter.write_initial_stock`. -/
def write_initial_stock (fs : FS) (month : ℕ) (tyre_row : ℕ) (value : ℤ) :
    FS × Except String Unit :=
  let fs1 := create_backup fs
  match fs1.main.get? (get_sheet_name month) with
  | Option.none => (fs1, .error (keyErrorMsg (get_sheet_name month)))
  | some ws =>
    match safe_write ws tyre_row (get_layout month).initial_stock_col
        (.num (value : ℚ)) with
    | .error e => (fs1, .error e)
    | .ok ws' =>
        (⟨fs1.main.setSheet (get_sheet_name month) ws', fs1.backups⟩, .ok ())

/-- `ExcelWriter.write_added_stock`. -/
def write_added_stock (fs : FS) (month : ℕ) (tyre_row : ℕ) (value : ℤ) :
    FS × Except String Unit :=
  let fs1 := create_backup fs
  match fs1.main.get? (get_sheet_name month) with
  | Option.none => (fs1, .error (keyErrorMsg (get_sheet_name month)))
  | some ws =>
    match safe_write ws tyre_row (get_layout month).added_stock_col
        (.num (value : ℚ)) with
    | .error e => (fs1, .error e)
    | .ok ws' =>
        (⟨fs1.main.setSheet (get_sheet_name month) ws', fs1.backups⟩, .ok ())

/-- The daily-sales column range of a layout, as iterated by the clearing
loops: `range(daily_start_col, daily_end_col + 1)`. -/
def SheetLayout.dailyCols (l : SheetLayout) : List ℕ :=
  List.range' l.daily_start_col (l.daily_end_col + 1 - l.daily_start_col)

/-- The data row range `range(DATA_START_ROW, DATA_END_ROW + 1)`. -/
def dataRows : List ℕ := List.range' DATA_START_ROW (DATA_END_ROW + 1 - DATA_START_ROW)

/-- The per-row clearing step of `export_inventory_batch`: initial stock,
added stock, then each daily column is set to `None` (raw `ws.cell`
assignment; these are not formula columns). -/
def clearStockRowExport (l : SheetLayout) (ws : Sheet) (r : ℕ) : Sheet :=
  let ws1 := ws.set r l.initial_stock_col .none
  let ws2 := ws1.set r l.added_stock_col .none
  l.dailyCols.foldl (fun w c => w.set r c .none) ws2

/-- The clearing pass of `export_inventory_batch` over rows 2..51. -/
def clearRegionExport (l : SheetLayout) (ws : Sheet) : Sheet :=
  dataRows.foldl (clearStockRowExport l) ws

/-- The stock-writing loop of `export_inventory_batch`: truthy values are
written through `_safe_write`, zeroes are skipped. -/
def writeStockFold (l : SheetLayout) (stock : List StockEntry) (ws : Sheet) :
    Except String Sheet :=
  stock.foldlM (fun w e => do
    let w1 ← if e.initial_stock ≠ 0 then
        safe_write w e.row l.initial_stock_col (.num (e.initial_stock : ℚ))
      else pure w
    if e.added_stock ≠ 0 then
      safe_write w1 e.row l.added_stock_col (.num (e.added_stock : ℚ))
    else pure w1) ws

/-- The daily-sales loop of `export_inventory_batch`, threading the
`records` counter. -/
def writeDailyFold (l : SheetLayout) (salesByDay : List (ℕ × List SaleEntry))
    (acc : Sheet × ℕ) : Except String (Sheet × ℕ) :=
  salesByDay.foldlM (fun acc p => do
    let col ← l.day_to_col p.1
    p.2.foldlM (fun (q : Sheet × ℕ) s => do
      let w ← safe_write q.1 s.row col (qtyCell s.qty)
      pure (w, q.2 + 1)) acc) acc

/-- `ExcelWriter.export_inventory_batch`: backup, clear the writable
region, write stock levels and daily sales in one open/save cycle, save,
and return the number of daily records written.  `sales_by_day` is the
dict in its (sorted, key-unique) iteration order. -/
def export_inventory_batch (fs : FS) (month : ℕ) (stock : List StockEntry)
    (salesByDay : List (ℕ × List SaleEntry)) : FS × Except String ℕ :=
  let fs1 := create_backup fs
  let layout := get_layout month
  match fs1.main.get? (get_sheet_name month) with
  | Option.none => (fs1, .error (keyErrorMsg (get_sheet_name month)))
  | some ws =>
    let cleared := clearRegionExport layout ws
    match writeStockFold layout stock cleared with
    | .error e => (fs1, .error e)
    | .ok ws1 =>
      match writeDailyFold layout salesByDay (ws1, 0) with
      | .error e => (fs1, .error e)
      | .ok (ws2, records) =>
          (⟨fs1.main.setSheet (get_sheet_name month) ws2, fs1.backups⟩,
           .ok records)

/-- The per-row clearing step of `ensure_month_sheet`: each daily column,
then initial stock, then added stock (raw `ws.cell` assignment). -/
def clearStockRowEnsure (l : SheetLayout) (ws : Sheet) (r : ℕ) : Sheet :=
  let ws1 := l.dailyCols.foldl (fun w c => w.set r c .none) ws
  let ws2 := ws1.set r l.initial_stock_col .none
  ws2.set r l.added_stock_col .none

/-- The variable-region clearing pass of `ensure_month_sheet`. -/
def clearRegionEnsure (l : SheetLayout) (ws : Sheet) : Sheet :=
  dataRows.foldl (clearStockRowEnsure l) ws

/-- `ExcelWriter.ensure_month_sheet`: if the month sheet is missing, clone
the month-1 sheet (falling back to the first sheet), clear the variable
region, and save.  NOTE (faithful to the source): this operation does
*not* call `_create_backup` before saving. -/
def ensure_month_sheet (fs : FS) (month : ℕ) : FS × Except String Bool :=
  let target := get_sheet_name month
  match fs.main.get? target with
  | some _ => (fs, .ok false)
  | Option.none =>
    let sourceName :=
      if get_sheet_name 1 ∈ fs.main.sheetnames then get_sheet_name 1
      else fs.main.sheetnames.headD ""
    match fs.main.get? sourceName with
    | Option.none => (fs, .error (keyErrorMsg sourceName))
    | some srcWs =>
        let cleared := clearRegionEnsure (get_layout month) srcWs
        (⟨fs.main ++ [(target, cleared)], fs.backups⟩, .ok true)

/-- A sale dict handed to the invoice writer (`export_invoice_batch` /
`append_invoice_sale`). -/
structure SaleDict where
  date : Option PyDate
  brand : Option String
  type : Option String
  size : Option String
  qty : Option ℚ
  unit_price : Option ℚ
  discount : Option ℚ
  payment_method : Option String
  customer_name : Option String

/-- A payment dict handed to the invoice writer. -/
structure PaymentDict where
  date : Option PyDate
  customer : Option String
  payment_method : Option String
  amount_mwk : Option ℚ

/-- Writing an optional string into a cell (`None` leaves it empty). -/
def optStrCell (o : Option String) : CellValue :=
  match o with
  | some s => .str s
  | Option.none => .none

/-- Writing an optional number into a cell. -/
def optNumCell (o : Option ℚ) : CellValue :=
  match o with
  | some q => .num q
  | Option.none => .none

/-- The `=E{r}*F{r}*(1-G{r})` total formula string. -/
def totalFormula (r : ℕ) : String :=
  "=" ++ get_column_letter INV_SALES_QTY_COL ++ toString r ++ "*" ++
    get_column_letter INV_SALES_PRICE_COL ++ toString r ++ "*(1-" ++
    get_column_letter INV_SALES_DISCOUNT_COL ++ toString r ++ ")"

/-- One sales row as written by `export_invoice_batch` (dates are written
as `datetime` objects). -/
def writeSaleRowExport (ws : Sheet) (r : ℕ) (sale : SaleDict) : Sheet :=
  let dateCell : CellValue :=
    match sale.date with
    | some d => .date d.ordinal
    | Option.none => .none
  ((((((((ws.set r INV_SALES_DATE_COL dateCell).set r INV_SALES_BRAND_COL
      (optStrCell sale.brand)).set r INV_SALES_TYPE_COL
      (optStrCell sale.type)).set r INV_SALES_SIZE_COL
      (optStrCell sale.size)).set r INV_SALES_QTY_COL
      (optNumCell sale.qty)).set r INV_SALES_PRICE_COL
      (optNumCell sale.unit_price)).set r INV_SALES_DISCOUNT_COL
      (optNumCell sale.discount)).set r INV_SALES_TOTAL_COL
      (.str (totalFormula r))).set r INV_SALES_PAYMENT_COL
      (optStrCell sale.payment_method)
    |>.set r INV_SALES_CUSTOMER_COL (optStrCell sale.customer_name)

/-- One payment row as written by `export_invoice_batch` /
`append_invoice_payment` (dates as `datetime` objects). -/
def writePaymentRow (ws : Sheet) (r : ℕ) (payment : PaymentDict) : Sheet :=
  let dateCell : CellValue :=
    match payment.date with
    | some d => .date d.ordinal
    | Option.none => .none
  (((ws.set r INV_PAY_DATE_COL dateCell).set r INV_PAY_CUSTOMER_COL
      (optStrCell payment.customer)).set r INV_PAY_METHOD_COL
      (optStrCell payment.payment_method)).set r INV_PAY_AMOUNT_COL
      (optNumCell payment.amount_mwk)

/-- `ExcelWriter.export_invoice_batch`: backup, delete the data rows of
both sheets (keeping the header row), rewrite all sales and payments,
save, and return the counts. -/
def export_invoice_batch (fs : FS) (sales : List SaleDict)
    (payments : List PaymentDict) : FS × Except String (ℕ × ℕ) :=
  let fs1 := create_backup fs
  match fs1.main.get? INVOICE_SALES_SHEET with
  | Option.none => (fs1, .error (keyErrorMsg INVOICE_SALES_SHEET))
  | some wsS =>
    let wsS1 := if wsS.maxRow > 1 then wsS.deleteRows 2 (wsS.maxRow - 1) else wsS
    let wsS2 := sales.enum.foldl (fun w p => writeSaleRowExport w (p.1 + 2) p.2) wsS1
    match fs1.main.get? INVOICE_PAYMENTS_SHEET with
    | Option.none => (fs1, .error (keyErrorMsg INVOICE_PAYMENTS_SHEET))
    | some wsP =>
      let wsP1 := if wsP.maxRow > 1 then wsP.deleteRows 2 (wsP.maxRow - 1) else wsP
      let wsP2 := payments.enum.foldl (fun w p => writePaymentRow w (p.1 + 2) p.2) wsP1
      (⟨(fs1.main.setSheet INVOICE_SALES_SHEET wsS2).setSheet
          INVOICE_PAYMENTS_SHEET wsP2, fs1.backups⟩,
       .ok (sales.length, payments.length))

/-- One sales row as written by `append_invoice_sale` (dates converted to
Excel serial numbers relative to the 1899-12-30 epoch). -/
def writeSaleRowAppend (ws : Sheet) (r : ℕ) (sale : SaleDict) : Sheet :=
  let dateCell : CellValue :=
    match sale.date with
    | some d => .num ((d.ordinal - excelEpochOrdinal : ℤ) : ℚ)
    | Option.none => .none
  ((((((((ws.set r INV_SALES_DATE_COL dateCell).set r INV_SALES_BRAND_COL
      (optStrCell sale.brand)).set r INV_SALES_TYPE_COL
      (optStrCell sale.type)).set r INV_SALES_SIZE_COL
      (optStrCell sale.size)).set r INV_SALES_QTY_COL
      (optNumCell sale.qty)).set r INV_SALES_PRICE_COL
      (optNumCell sale.unit_price)).set r INV_SALES_DISCOUNT_COL
      (optNumCell sale.discount)).set r INV_SALES_TOTAL_COL
      (.str (totalFormula r))).set r INV_SALES_PAYMENT_COL
      (optStrCell sale.payment_method)
    |>.set r INV_SALES_CUSTOMER_COL (optStrCell sale.customer_name)

/-- `ExcelWriter.append_invoice_sale`: backup, append one sale at
`max_row + 1` of the 'Sales Record' sheet, save. -/
def append_invoice_sale (fs : FS) (sale : SaleDict) : FS × Except String Unit :=
  let fs1 := create_backup fs
  match fs1.main.get? INVOICE_SALES_SHEET with
  | Option.none => (fs1, .error (keyErrorMsg INVOICE_SALES_SHEET))
  | some ws =>
      let ws' := writeSaleRowAppend ws (ws.maxRow + 1) sale
      (⟨fs1.main.setSheet INVOICE_SALES_SHEET ws', fs1.backups⟩, .ok ())

/-- `ExcelWriter.append_invoice_payment`: backup, append one payment at
`max_row + 1` of the 'Payment Record' sheet, save. -/
def append_invoice_payment (fs : FS) (payment : PaymentDict) :
    FS × Except String Unit :=
  let fs1 := create_backup fs
  match fs1.main.get? INVOICE_PAYMENTS_SHEET with
  | Option.none => (fs1, .error (keyErrorMsg INVOICE_PAYMENTS_SHEET))
  | some ws =>
      let ws' := writePaymentRow ws (ws.maxRow + 1) payment
      (⟨fs1.main.setSheet INVOICE_PAYMENTS_SHEET ws', fs1.backups⟩, .ok ())

/-! ## C1: formula-column protection -/

/-- Helper: membership in `FORMULA_COLUMNS` bounds the index by 7..11. -/
theorem mem_formula_columns_iff {c : ℕ} :
    c ∈ FORMULA_COLUMNS ↔ c = 7 ∨ c = 8 ∨ c = 9 ∨ c = 10 ∨ c = 11 := by
  simp [FORMULA_COLUMNS]

/-- Helper: both layouts start their daily block at column 15 or 16. -/
theorem daily_start_col_ge (month : ℕ) :
    15 ≤ (get_layout month).daily_start_col := by
  unfold get_layout
  split <;> decide

/-- **C1.** Formula-column protection: (1) `_safe_write` refuses, with a
`ValueError`, every write whose column is in `FORMULA_COLUMNS`; (2)-(3)
the columns the inventory write operations actually target (the day
column produced by `day_to_col` and the two stock columns) are never
formula columns; (4)-(7) whenever `write_daily_sales`,
`write_initial_stock`, `write_added_stock` or `export_inventory_batch`
raises, the workbook on disk is unchanged — the save point is never
reached (the backup snapshot is still taken, but the target file itself
is untouched). -/
theorem writer_formula_column_protection :
    (∀ (ws : Sheet) (r c : ℕ) (v : CellValue), c ∈ FORMULA_COLUMNS →
      safe_write ws r c v = .error (formulaViolationMsg c)) ∧
    (∀ (month day col : ℕ), (get_layout month).day_to_col day = .ok col →
      col ∉ FORMULA_COLUMNS) ∧
    (∀ month : ℕ, (get_layout month).initial_stock_col ∉ FORMULA_COLUMNS ∧
      (get_layout month).added_stock_col ∉ FORMULA_COLUMNS) ∧
    (∀ (fs : FS) (month day : ℕ) (sales : List SaleEntry) (e : String),
      (write_daily_sales fs month day sales).2 = .error e →
      (write_daily_sales fs month day sales).1.main = fs.main) ∧
    (∀ (fs : FS) (month row : ℕ) (v : ℤ) (e : String),
      (write_initial_stock fs month row v).2 = .error e →
      (write_initial_stock fs month row v).1.main = fs.main) ∧
    (∀ (fs : FS) (month row : ℕ) (v : ℤ) (e : String),
      (write_added_stock fs month row v).2 = .error e →
      (write_added_stock fs month row v).1.main = fs.main) ∧
    (∀ (fs : FS) (month : ℕ) (stock : List StockEntry)
        (salesByDay : List (ℕ × List SaleEntry)) (e : String),
      (export_inventory_batch fs month stock salesByDay).2 = .error e →
      (export_inventory_batch fs month stock salesByDay).1.main = fs.main) := by
  refine ⟨?_, ?_, ?_, ?_, ?_, ?_, ?_⟩
  · intro ws r c v hc
    unfold safe_write
    rw [if_pos hc]
  · intro month day col h
    unfold SheetLayout.day_to_col at h
    split at h
    · rename_i hday
      have hcol : (get_layout month).daily_start_col + day - 1 = col := by
        injection h
      have h15 := daily_start_col_ge month
      intro hmem
      rw [mem_formula_columns_iff] at hmem
      omega
    · simp at h
  · intro month
    unfold get_layout
    split <;> exact ⟨by decide, by decide⟩
  · intro fs month day sales e h
    simp only [write_daily_sales, create_backup] at h ⊢
    rcases h1 : (get_layout month).day_to_col day with e1 | col <;>
      simp only [h1] at h ⊢
    rcases h2 : fs.main.get? (get_sheet_name month) with _ | ws <;>
      simp only [h2] at h ⊢
    rcases h3 : writeSalesFold col sales ws with e3 | ws' <;>
      simp only [h3] at h ⊢
    exact absurd h (by simp)
  · intro fs month row v e h
    simp only [write_initial_stock, create_backup] at h ⊢
    rcases h2 : fs.main.get? (get_sheet_name month) with _ | ws <;>
      simp only [h2] at h ⊢
    rcases h3 : safe_write ws row (get_layout month).initial_stock_col
        (.num (v : ℚ)) with e3 | ws' <;>
      simp only [h3] at h ⊢
    exact absurd h (by simp)
  · intro fs month row v e h
    simp only [write_added_stock, create_backup] at h ⊢
    rcases h2 : fs.main.get? (get_sheet_name month) with _ | ws <;>
      simp only [h2] at h ⊢
    rcases h3 : safe_write ws row (get_layout month).added_stock_col
        (.num (v : ℚ)) with e3 | ws' <;>
      simp only [h3] at h ⊢
    exact absurd h (by simp)
  · intro fs month stock salesByDay e h
    simp only [export_inventory_batch, create_backup] at h ⊢
    rcases h2 : fs.main.get? (get_sheet_name month) with _ | ws <;>
      simp only [h2] at h ⊢
    rcases h3 : writeStockFold (get_layout month) stock
        (clearRegionExport (get_layout month) ws) with e3 | ws1 <;>
      simp only [h3] at h ⊢
    rcases h4 : writeDailyFold (get_layout month) salesByDay (ws1, 0) with
      e4 | p <;> simp only [h4] at h ⊢
    exact absurd h (by simp)

/-- A blank worksheet. -/
def emptySheet : Sheet := ⟨fun _ => CellValue.none, 1⟩

/-- A filesystem holding an empty workbook (no sheets). -/
def emptyFS : FS := ⟨[], []⟩

/-- Concrete instantiations of every hypothesis-bearing part of C1:
`_safe_write` refuses column 7; day 1 resolves to column 15, which is not
a formula column; a failing `write_daily_sales` call (missing month
sheet) leaves the workbook unchanged; likewise for the other three
operations. -/
theorem writer_formula_column_protection_witness :
    safe_write emptySheet 2 7 (.num 1) = .error (formulaViolationMsg 7) ∧
    (15 : ℕ) ∉ FORMULA_COLUMNS ∧
    (write_daily_sales emptyFS 1 1 []).1.main = emptyFS.main ∧
    (write_initial_stock emptyFS 1 2 5).1.main = emptyFS.main ∧
    (write_added_stock emptyFS 1 2 5).1.main = emptyFS.main ∧
    (export_inventory_batch emptyFS 1 [] []).1.main = emptyFS.main :=
  ⟨writer_formula_column_protection.1 emptySheet 2 7 (.num 1) (by decide),
   writer_formula_column_protection.2.1 1 1 15 (by rfl),
   writer_formula_column_protection.2.2.2.1 emptyFS 1 1 []
     (keyErrorMsg (get_sheet_name 1)) (by rfl),
   writer_formula_column_protection.2.2.2.2.1 emptyFS 1 2 5
     (keyErrorMsg (get_sheet_name 1)) (by rfl),
   writer_formula_column_protection.2.2.2.2.2.1 emptyFS 1 2 5
     (keyErrorMsg (get_sheet_name 1)) (by rfl),
   writer_formula_column_protection.2.2.2.2.2.2 emptyFS 1 [] []
     (keyErrorMsg (get_sheet_name 1)) (by rfl)⟩

/-! ## C2: backup-before-write -/

/-- An inventory workbook holding only the month-1 sheet. -/
def testInvFS : FS := ⟨[(get_sheet_name 1, emptySheet)], []⟩

/-- **C2 (code bug).** Every file-mutating writer operation except
`ensure_month_sheet` pushes a backup snapshot unconditionally — before
resolving the layout, opening the sheet, or attempting any write, and
therefore also when the subsequent write fails.  `ensure_month_sheet`,
however, saves a modified workbook (it appends the cloned month sheet)
*without ever calling `_create_backup`*: on a file containing only the
month-1 sheet, `ensure_month_sheet(·, 2)` reports that it created a sheet
and grows the workbook from one sheet to two, while the backups directory
stays empty.  This contradicts the claim and the module's own docstring
("Always creates a backup before any write operation"). -/
theorem backup_before_write_except_ensure_month_sheet :
    (∀ (fs : FS) (month day : ℕ) (sales : List SaleEntry),
      (write_daily_sales fs month day sales).1.backups = fs.main :: fs.backups) ∧
    (∀ (fs : FS) (month row : ℕ) (v : ℤ),
      (write_initial_stock fs month row v).1.backups = fs.main :: fs.backups) ∧
    (∀ (fs : FS) (month row : ℕ) (v : ℤ),
      (write_added_stock fs month row v).1.backups = fs.main :: fs.backups) ∧
    (∀ (fs : FS) (month : ℕ) (stock : List StockEntry)
        (salesByDay : List (ℕ × List SaleEntry)),
      (export_inventory_batch fs month stock salesByDay).1.backups =
        fs.main :: fs.backups) ∧
    (∀ (fs : FS) (sales : List SaleDict) (payments : List PaymentDict),
      (export_invoice_batch fs sales payments).1.backups = fs.main :: fs.backups) ∧
    (∀ (fs : FS) (sale : SaleDict),
      (append_invoice_sale fs sale).1.backups = fs.main :: fs.backups) ∧
    (∀ (fs : FS) (payment : PaymentDict),
      (append_invoice_payment fs payment).1.backups = fs.main :: fs.backups) ∧
    ((ensure_month_sheet testInvFS 2).2 = .ok true ∧
      (ensure_month_sheet testInvFS 2).1.backups = [] ∧
      (ensure_month_sheet testInvFS 2).1.main.length = 2 ∧
      testInvFS.main.length = 1) := by
  refine ⟨?_, ?_, ?_, ?_, ?_, ?_, ?_, ?_⟩
  · intro fs month day sales
    simp only [write_daily_sales, create_backup]
    rcases h1 : (get_layout month).day_to_col day with e1 | col <;>
      simp only [h1]
    rcases h2 : fs.main.get? (get_sheet_name month) with _ | ws <;>
      simp only [h2]
    rcases h3 : writeSalesFold col sales ws with e3 | ws' <;>
      simp only [h3]
  · intro fs month row v
    simp only [write_initial_stock, create_backup]
    rcases h2 : fs.main.get? (get_sheet_name month) with _ | ws <;>
      simp only [h2]
    rcases h3 : safe_write ws row (get_layout month).initial_stock_col
        (.num (v : ℚ)) with e3 | ws' <;>
      simp only [h3]
  · intro fs month row v
    simp only [write_added_stock, create_backup]
    rcases h2 : fs.main.get? (get_sheet_name month) with _ | ws <;>
      simp only [h2]
    rcases h3 : safe_write ws row (get_layout month).added_stock_col
        (.num (v : ℚ)) with e3 | ws' <;>
      simp only [h3]
  · intro fs month stock salesByDay
    simp only [export_inventory_batch, create_backup]
    rcases h2 : fs.main.get? (get_sheet_name month) with _ | ws <;>
      simp only [h2]
    rcases h3 : writeStockFold (get_layout month) stock
        (clearRegionExport (get_layout month) ws) with e3 | ws1 <;>
      simp only [h3]
    rcases h4 : writeDailyFold (get_layout month) salesByDay (ws1, 0) with
      e4 | p <;> simp only [h4]
  · intro fs sales payments
    simp only [export_invoice_batch, create_backup]
    rcases h2 : fs.main.get? INVOICE_SALES_SHEET with _ | wsS <;>
      simp only [h2]
    rcases h3 : fs.main.get? INVOICE_PAYMENTS_SHEET with _ | wsP <;>
      simp only [h3]
  · intro fs sale
    simp only [append_invoice_sale, create_backup]
    rcases h2 : fs.main.get? INVOICE_SALES_SHEET with _ | ws <;>
      simp only [h2]
  · intro fs payment
    simp only [append_invoice_payment, create_backup]
    rcases h2 : fs.main.get? INVOICE_PAYMENTS_SHEET with _ | ws <;>
      simp only [h2]
  · exact ⟨by rfl, by rfl, by rfl, by rfl⟩

/-! ## `reader.py` -/

def INV_SIZE_COL : ℕ := 1
def INV_TYPE_COL : ℕ := 2
def INV_BRAND_COL : ℕ := 3
def INV_PATTERN_COL : ℕ := 4
def INV_LISR_COL : ℕ := 5
def INV_COST_COL : ℕ := 6
def INV_ORIG_PRICE_COL : ℕ := 12
def INV_SUGGESTED_PRICE_COL : ℕ := 9

/-- The day column for a day that is statically within 1..31 (the reader
iterates `range(1, 32)`, where `day_to_col` cannot raise). -/
def SheetLayout.dayCol (l : SheetLayout) (d : ℕ) : ℕ :=
  l.daily_start_col + d - 1

/-- A tyre row as returned by `ExcelReader.read_inventory`. -/
structure TyreRow where
  row : ℕ
  size : String
  type : Option String
  brand : Option String
  pattern : Option String
  li_sr : Option String
  tyre_cost : ℚ
  original_price : ℚ
  suggested_price : ℚ
  initial_stock : ℤ
  added_stock : ℤ
  daily_sales : List (ℕ × ℤ)
  deriving DecidableEq

/-- The sparse day→qty map of one inventory row: days 1..31, entries with
`qty > 0` only. -/
def readDailySales (l : SheetLayout) (ws : Sheet) (r : ℕ) : List (ℕ × ℤ) :=
  (List.range' 1 31).filterMap (fun d =>
    let qty := toInt (ws.cell r (l.dayCol d)) 0
    if 0 < qty then some (d, qty) else Option.none)

/-- One row of `read_inventory`: skipped (`Option.none`) when the size
cell is empty or holds a summary label. -/
def readInventoryRow (l : SheetLayout) (ws : Sheet) (r : ℕ) : Option TyreRow :=
  match toStr (ws.cell r INV_SIZE_COL) with
  | Option.none => Option.none
  | some size =>
      if pyLower size = "total" ∨ pyLower size = "total tyre available" then
        Option.none
      else some
        { row := r
          size := size
          type := toStr (ws.cell r INV_TYPE_COL)
          brand := toStr (ws.cell r INV_BRAND_COL)
          pattern := toStr (ws.cell r INV_PATTERN_COL)
          li_sr := toStr (ws.cell r INV_LISR_COL)
          tyre_cost := toFloat (ws.cell r INV_COST_COL) 0
          original_price := toFloat (ws.cell r INV_ORIG_PRICE_COL) 0
          suggested_price := toFloat (ws.cell r INV_SUGGESTED_PRICE_COL) 0
          initial_stock := toInt (ws.cell r l.initial_stock_col) 0
          added_stock := toInt (ws.cell r l.added_stock_col) 0
          daily_sales := readDailySales l ws r }

/-- The row scan of `read_inventory` over the fixed window 2..51. -/
def readInventorySheet (month : ℕ) (ws : Sheet) : List TyreRow :=
  dataRows.filterMap (readInventoryRow (get_layout month) ws)

/-- `ExcelReader.read_inventory`: raises when the month sheet is absent. -/
def read_inventory (wb : Workbook) (month : ℕ) : Except String (List TyreRow) :=
  match wb.get? (get_sheet_name month) with
  | Option.none => .error ("Sheet not found: " ++ get_sheet_name month)
  | some ws => .ok (readInventorySheet month ws)

/-- `ExcelReader.detect_invoice_format`. -/
def detect_invoice_format (wb : Workbook) : Except String String :=
  let names := wb.sheetnames
  if INVOICE_SALES_SHEET ∈ names then .ok "new"
  else if INVOICE_OLD_CASH_SHEET ∈ names ∨ INVOICE_OLD_MUKURU_SHEET ∈ names then
    .ok "old"
  else .error "Unrecognized invoice format."

/-- A payment record as returned by the invoice payment readers. -/
structure PaymentRec where
  date : Option PyDate
  customer : Option String
  payment_method : Option String
  amount_mwk : ℚ
  deriving DecidableEq

/-- One row of the new-format `read_invoice_payments`: rows with an empty
amount cell are skipped; no other filtering is applied. -/
def readInvoicePaymentRow (ws : Sheet) (r : ℕ) : Option PaymentRec :=
  let amount := ws.cell r INV_PAY_AMOUNT_COL
  if amount = CellValue.none then Option.none
  else some
    { date := excelDateToDate (ws.cell r INV_PAY_DATE_COL)
      customer := toStr (ws.cell r INV_PAY_CUSTOMER_COL)
      payment_method := toStr (ws.cell r INV_PAY_METHOD_COL)
      amount_mwk := toFloat amount 0 }

/-- `ExcelReader.read_invoice_payments` (new format): rows 2..max_row of
the 'Payment Record' sheet. -/
def read_invoice_payments (wb : Workbook) : Except String (List PaymentRec) :=
  match wb.get? INVOICE_PAYMENTS_SHEET with
  | Option.none => .error (keyErrorMsg INVOICE_PAYMENTS_SHEET)
  | some ws =>
      .ok ((List.range' 2 (ws.maxRow + 1 - 2)).filterMap (readInvoicePaymentRow ws))

/-! ### Old-format invoice sheets -/

def OLD_PAY_DATE_COL : ℕ := 1
def OLD_PAY_CUSTOMER_COL : ℕ := 2
def OLD_PAY_AMOUNT_COL : ℕ := 4

/-- The column parameters `_read_old_sheet_sales` receives for one
old-format sheet. -/
structure OldSheetCols where
  size_col : ℕ
  type_col : ℕ
  brand_col : ℕ
  qty_col : ℕ
  price_col : ℕ
  total_col : ℕ
  customer_col : ℕ
  date_col : ℕ
  note_col : Option ℕ
  data_start_row : ℕ

/-- Columns of the old 'Cash' sheet (`OLD_CASH_*` in `config.py`). -/
def OLD_CASH_COLS : OldSheetCols :=
  { size_col := 2, type_col := 3, brand_col := 4, qty_col := 5, price_col := 6
    total_col := 7, customer_col := 9, date_col := 1, note_col := some 8
    data_start_row := 3 }

/-- Columns of the old 'Mukuru' sheet (`OLD_MUKURU_*`; no Note column). -/
def OLD_MUKURU_COLS : OldSheetCols :=
  { size_col := 4, type_col := 3, brand_col := 2, qty_col := 5, price_col := 6
    total_col := 7, customer_col := 8, date_col := 1, note_col := Option.none
    data_start_row := 3 }

/-- A sale record as returned by the invoice sales readers. -/
structure SaleRec where
  date : Option PyDate
  brand : Option String
  type : Option String
  size : Option String
  qty : ℤ
  unit_price : ℚ
  discount : ℚ
  total : ℚ
  payment_method : Option String
  customer_name : Option String
  deriving DecidableEq

/-- `size_val and size_val.lower() in ("total", "total quantity")`. -/
def sizeIsSummary (o : Option String) : Bool :=
  match o with
  | some t => pyLower t = "total" ∨ pyLower t = "total quantity"
  | Option.none => false

/-- `date_str and date_str.lower() in ("total", ...)` for old sales rows. -/
def dateIsSummary (o : Option String) : Bool :=
  match o with
  | some t => pyLower t = "total" ∨ pyLower t = "total quantity" ∨
      pyLower t = "total price" ∨ pyLower t = "total price (mkw)"
  | Option.none => false

/-- `date_str and date_str.lower() == "date"`: the literal header cell
marking the start of the embedded payment sub-section. -/
def isDateHeader (o : Option String) : Bool :=
  match o with
  | some t => pyLower t = "date"
  | Option.none => false

/-- The old-format discount extraction (`reader.py` lines 562-572): the
Note column holds a numeric discount such as `-0.05`; its absolute value
is taken, *on the fraction scale* — no rescaling to percentage happens
here. -/
def oldSaleDiscount (note : CellValue) : ℚ :=
  match note with
  | .none => 0
  | v => match cellFloat v with
         | some d => |d|
         | Option.none => 0

/-- One data row of `_read_old_sheet_sales` (the payment-header break is
handled by the surrounding scan): `Option.none` for skipped rows. -/
def oldSheetSaleRow (ws : Sheet) (cfg : OldSheetCols) (pm : String) (r : ℕ) :
    Option SaleRec :=
  let qtyVal := ws.cell r cfg.qty_col
  let sizeVal := toStr (ws.cell r cfg.size_col)
  let dateVal := ws.cell r cfg.date_col
  let dateStr := toStr dateVal
  if qtyVal = CellValue.none ∧ sizeVal = Option.none ∧ dateVal = CellValue.none then
    Option.none
  else if sizeIsSummary sizeVal then Option.none
  else if dateIsSummary dateStr then Option.none
  else
    let quantity := toInt qtyVal 0
    let discount :=
      match cfg.note_col with
      | some nc => oldSaleDiscount (ws.cell r nc)
      | Option.none => 0
    if sizeVal = Option.none ∧ quantity = 0 then Option.none
    else some
      { date := excelDateToDate dateVal
        brand := toStr (ws.cell r cfg.brand_col)
        type := toStr (ws.cell r cfg.type_col)
        size := sizeVal
        qty := quantity
        unit_price := toFloat (ws.cell r cfg.price_col) 0
        discount := discount
        total := toFloat (ws.cell r cfg.total_col) 0
        payment_method := some pm
        customer_name := toStr (ws.cell r cfg.customer_col) }

/-- The row scan of `_read_old_sheet_sales`: collect sales until the
`"Date"` header of the embedded payment sub-section is met (the loop's
`break`); returns the sales and the payment-section start row
(`max_row + 1` when no payment section exists). -/
def readOldSheetSalesAux (ws : Sheet) (cfg : OldSheetCols) (pm : String) :
    List ℕ → List SaleRec × ℕ
  | [] => ([], ws.maxRow + 1)
  | r :: rest =>
      if isDateHeader (toStr (ws.cell r cfg.date_col)) then ([], r + 1)
      else
        let res := readOldSheetSalesAux ws cfg pm rest
        match oldSheetSaleRow ws cfg pm r with
        | Option.none => res
        | some sr => (sr :: res.1, res.2)

/-- `ExcelReader._read_old_sheet_sales`. -/
def read_old_sheet_sales (ws : Sheet) (cfg : OldSheetCols) (pm : String) :
    List SaleRec × ℕ :=
  readOldSheetSalesAux ws cfg pm
    (List.range' cfg.data_start_row (ws.maxRow + 1 - cfg.data_start_row))

/-- One row of `_read_old_sheet_payments`: empty amount, summary label,
and non-positive (`amount_f <= 0`) rows are all silently dropped. -/
def readOldSheetPaymentRow (ws : Sheet) (pm : String) (r : ℕ) :
    Option PaymentRec :=
  let amount := ws.cell r OLD_PAY_AMOUNT_COL
  if amount = CellValue.none then Option.none
  else if dateIsTotals (toStr (ws.cell r OLD_PAY_DATE_COL)) then Option.none
  else
    let amountF := toFloat amount 0
    if amountF ≤ 0 then Option.none
    else some
      { date := excelDateToDate (ws.cell r OLD_PAY_DATE_COL)
        customer := toStr (ws.cell r OLD_PAY_CUSTOMER_COL)
        payment_method := some pm
        amount_mwk := amountF }
where
  dateIsTotals (o : Option String) : Bool :=
    match o with
    | some t => pyLower t = "total" ∨ pyLower t = "totals"
    | Option.none => false

/-- `ExcelReader._read_old_sheet_payments`: the embedded payment
sub-section from `start` to `max_row`. -/
def readOldSheetPayments (ws : Sheet) (pm : String) (start : ℕ) :
    List PaymentRec :=
  (List.range' start (ws.maxRow + 1 - start)).filterMap
    (readOldSheetPaymentRow ws pm)

/-- `ExcelReader.read_invoice_sales_old`: Cash sheet sales then Mukuru
sheet sales. -/
def read_invoice_sales_old (wb : Workbook) : List SaleRec :=
  (match wb.get? INVOICE_OLD_CASH_SHEET with
   | some ws => (read_old_sheet_sales ws OLD_CASH_COLS "Cash").1
   | Option.none => []) ++
  (match wb.get? INVOICE_OLD_MUKURU_SHEET with
   | some ws => (read_old_sheet_sales ws OLD_MUKURU_COLS "Mukuru").1
   | Option.none => [])

/-- `ExcelReader.read_invoice_payments_old`: for each old sheet, locate
the payment sub-section via `_read_old_sheet_sales` and read it. -/
def read_invoice_payments_old (wb : Workbook) : List PaymentRec :=
  (match wb.get? INVOICE_OLD_CASH_SHEET with
   | some ws =>
       readOldSheetPayments ws "Cash"
         (read_old_sheet_sales ws OLD_CASH_COLS "Cash").2
   | Option.none => []) ++
  (match wb.get? INVOICE_OLD_MUKURU_SHEET with
   | some ws =>
       readOldSheetPayments ws "Mukuru"
         (read_old_sheet_sales ws OLD_MUKURU_COLS "Mukuru").2
   | Option.none => [])

/-! ## C8: invoice format detection -/

/-- **C8 counterexample.** The claim says that for a workbook containing
a split-sheet name ('Cash' or 'Mukuru') the result is "old"; but when the
consolidated 'Sales Record' sheet is *also* present, the code returns
"new" — the consolidated sheet takes priority. -/
theorem detect_invoice_format_mixed_workbook_counterexample :
    detect_invoice_format
        [(INVOICE_SALES_SHEET, emptySheet), (INVOICE_OLD_CASH_SHEET, emptySheet)] =
      .ok "new" ∧ ("new" : String) ≠ "old" :=
  ⟨rfl, by decide⟩

/-- **C8 (amended).** `detect_invoice_format` returns "new" whenever the
consolidated 'Sales Record' sheet is present; returns "old" when 'Sales
Record' is absent and either 'Cash' or 'Mukuru' is present; and raises
exactly when none of the three sheets is present.  ('Sales Record' takes
priority over the split-sheet names.) -/
theorem detect_invoice_format_spec (wb : Workbook) :
    (INVOICE_SALES_SHEET ∈ wb.sheetnames →
      detect_invoice_format wb = .ok "new") ∧
    (INVOICE_SALES_SHEET ∉ wb.sheetnames →
      (INVOICE_OLD_CASH_SHEET ∈ wb.sheetnames ∨
        INVOICE_OLD_MUKURU_SHEET ∈ wb.sheetnames) →
      detect_invoice_format wb = .ok "old") ∧
    ((∃ e, detect_invoice_format wb = .error e) ↔
      (INVOICE_SALES_SHEET ∉ wb.sheetnames ∧
        INVOICE_OLD_CASH_SHEET ∉ wb.sheetnames ∧
        INVOICE_OLD_MUKURU_SHEET ∉ wb.sheetnames)) := by
  simp only [detect_invoice_format]
  split_ifs with h1 h2
  · exact ⟨fun _ => rfl, fun hn _ => absurd h1 hn, by simp [h1]⟩
  · refine ⟨fun hs => absurd hs h1, fun _ _ => rfl, ?_⟩
    constructor
    · rintro ⟨e, he⟩; cases he
    · rintro ⟨-, hc, hm⟩
      rcases h2 with h | h
      · exact absurd h hc
      · exact absurd h hm
  · push_neg at h2
    exact ⟨fun hs => absurd hs h1, fun _ hor => by tauto,
      ⟨fun _ => ⟨h1, h2.1, h2.2⟩, fun _ => ⟨"Unrecognized invoice format.", rfl⟩⟩⟩

/-- Concrete instantiations of C8: a Cash-only workbook is detected as
"old"; a Sales-Record workbook as "new"; an unrelated workbook raises. -/
theorem detect_invoice_format_spec_witness :
    detect_invoice_format [(INVOICE_OLD_CASH_SHEET, emptySheet)] = .ok "old" ∧
    detect_invoice_format [(INVOICE_SALES_SHEET, emptySheet)] = .ok "new" ∧
    (∃ e, detect_invoice_format [("Loss", emptySheet)] = .error e) :=
  ⟨(detect_invoice_format_spec [(INVOICE_OLD_CASH_SHEET, emptySheet)]).2.1
      (by decide) (Or.inl (by decide)),
   (detect_invoice_format_spec [(INVOICE_SALES_SHEET, emptySheet)]).1 (by decide),
   (detect_invoice_format_spec [("Loss", emptySheet)]).2.2.mpr
      ⟨by decide, by decide, by decide⟩⟩

/-! ## C5: old-format discount scale -/

/-- The discount normalization applied downstream by the import
orchestration (`routers/sync.py` line 397): a raw value strictly between
0 and 1 is taken to be a fraction and rescaled to the percentage scale;
anything else is passed through. -/
def normalizeDiscountPct (raw : ℚ) : ℚ :=
  if 0 < raw ∧ raw < 1 then raw * 100 else raw

/-- A concrete old-format 'Cash' sheet with one sales row (row 3) whose
Note column holds the numeric discount `-0.05`. -/
def oldCashSheet : Sheet :=
  ⟨fun p =>
    if p = (3, 1) then .str "2025.9.1"
    else if p = (3, 2) then .str "185/65R15"
    else if p = (3, 3) then .str "New"
    else if p = (3, 4) then .str "GT"
    else if p = (3, 5) then .num 4
    else if p = (3, 6) then .num 50000
    else if p = (3, 7) then .num 190000
    else if p = (3, 8) then .num (mkRat (-1) 20)
    else if p = (3, 9) then .str "Bob"
    else .none, 3⟩

/-- **C5 counterexample.** On the sheet above, the old-format reader
returns the sale with `discount = 0.05` (the absolute value of `-0.05`,
still on the *fraction* scale), not `5`: the reader does not rescale to
the percentage scale. -/
theorem old_discount_not_percent_counterexample :
    ((read_old_sheet_sales oldCashSheet OLD_CASH_COLS "Cash").1.map
        (fun s => s.discount)) = [mkRat 1 20] ∧ (mkRat 1 20 : ℚ) ≠ 5 := by
  constructor
  · decide
  · decide

/-- **C5 (amended).** The old-format reader normalizes a numeric Note
discount to its *absolute value on the fraction scale* (`-0.05 ↦ 0.05`);
the conversion to the percentage scale used by new-format records is
applied downstream by the import orchestration
(`discount * 100` when `0 < discount < 1`), which maps `0.05` to `5` —
so the two formats only agree in scale after that downstream step, not in
the reader's returned record. -/
theorem old_discount_abs_fraction_spec :
    (∀ (v : CellValue) (d : ℚ), cellFloat v = some d → oldSaleDiscount v = |d|) ∧
    oldSaleDiscount CellValue.none = 0 ∧
    ((read_old_sheet_sales oldCashSheet OLD_CASH_COLS "Cash").1.map
        (fun s => s.discount)) = [mkRat 1 20] ∧
    normalizeDiscountPct (oldSaleDiscount (.num (mkRat (-1) 20))) = 5 := by
  refine ⟨?_, rfl, by decide, ?_⟩
  · intro v d h
    rcases v with _ | q | s | n
    · simp [cellFloat] at h
    · simp only [oldSaleDiscount, h]
    · simp only [oldSaleDiscount, h]
    · simp [cellFloat] at h
  · have h1 : oldSaleDiscount (.num (mkRat (-1) 20)) = mkRat 1 20 := by decide
    have h2 : (mkRat 1 20 : ℚ) = 1/20 := by
      rw [Rat.mkRat_eq_divInt, Rat.divInt_eq_div]; norm_num
    rw [h1, h2]
    unfold normalizeDiscountPct
    norm_num

/-- Concrete instantiation of C5's hypothesis-bearing part: the Note cell
`-0.05` parses to `-0.05` and yields discount `0.05`. -/
theorem old_discount_abs_fraction_spec_witness :
    oldSaleDiscount (.num (mkRat (-1) 20)) = |(mkRat (-1) 20 : ℚ)| :=
  old_discount_abs_fraction_spec.1 (.num (mkRat (-1) 20)) (mkRat (-1) 20) rfl

/-! ## C9: payment positivity filtering -/

/-- A concrete old-format payment sub-section (rows 1..5 of a sheet):
a valid payment of 100, an empty amount, a zero, a negative, and a
non-numeric amount. -/
def oldPaymentsSheet : Sheet :=
  ⟨fun p =>
    if p = (1, 4) then .num 100
    else if p = (3, 4) then .num 0
    else if p = (4, 4) then .num (-3)
    else if p = (5, 4) then .str "abc"
    else .none, 5⟩

/-- A concrete new-format 'Payment Record' sheet whose single data row
has amount `-5`. -/
def negPaySheet : Sheet := ⟨fun p => if p = (2, 4) then .num (-5) else .none, 2⟩

def negPayWb : Workbook := [(INVOICE_PAYMENTS_SHEET, negPaySheet)]

/-- **C9.** Every payment returned by the old-format payment readers has
a strictly positive amount — rows whose amount is missing, non-numeric,
zero or negative are silently dropped (shown both in general and on the
concrete mixed sheet, where only the 100-MWK row survives) — whereas the
new-format `read_invoice_payments` applies no positivity filter and
returns a payment with amount `-5` unchanged. -/
theorem old_payments_positive_new_unfiltered :
    (∀ (ws : Sheet) (pm : String) (start : ℕ),
      ∀ p ∈ readOldSheetPayments ws pm start, 0 < p.amount_mwk) ∧
    (∀ wb : Workbook, ∀ p ∈ read_invoice_payments_old wb, 0 < p.amount_mwk) ∧
    readOldSheetPayments oldPaymentsSheet "Cash" 1 =
      [{ date := Option.none, customer := Option.none,
         payment_method := some "Cash", amount_mwk := 100 }] ∧
    read_invoice_payments negPayWb =
      .ok [{ date := Option.none, customer := Option.none,
             payment_method := Option.none, amount_mwk := -5 }] ∧
    ¬(0 < (-5 : ℚ)) := by
  have hpos : ∀ (ws : Sheet) (pm : String) (start : ℕ),
      ∀ p ∈ readOldSheetPayments ws pm start, 0 < p.amount_mwk := by
    intro ws pm start p hp
    rw [readOldSheetPayments, List.mem_filterMap] at hp
    obtain ⟨r, -, hrow⟩ := hp
    simp only [readOldSheetPaymentRow] at hrow
    split at hrow
    · exact Option.noConfusion hrow
    · split at hrow
      · exact Option.noConfusion hrow
      · split at hrow
        · exact Option.noConfusion hrow
        · rename_i h3
          injection hrow with hrec
          rw [← hrec]
          exact lt_of_not_ge h3
  refine ⟨hpos, ?_, by rfl, by rfl, by decide⟩
  intro wb p hp
  rw [read_invoice_payments_old, List.mem_append] at hp
  rcases hp with hp | hp
  · rcases hc : wb.get? INVOICE_OLD_CASH_SHEET with - | ws <;> rw [hc] at hp
    · cases hp
    · exact hpos ws "Cash" _ p hp
  · rcases hc : wb.get? INVOICE_OLD_MUKURU_SHEET with - | ws <;> rw [hc] at hp
    · cases hp
    · exact hpos ws "Mukuru" _ p hp

/-- Concrete instantiation of C9's hypothesis-bearing parts: the single
payment surviving the concrete old sheet is positive, and the same for a
workbook wrapping that sheet. -/
theorem old_payments_positive_witness :
    (0 : ℚ) <
      (PaymentRec.mk Option.none Option.none (some "Cash") 100).amount_mwk ∧
    (0 : ℚ) <
      (PaymentRec.mk Option.none Option.none (some "Mukuru") 7).amount_mwk :=
  ⟨old_payments_positive_new_unfiltered.1 oldPaymentsSheet "Cash" 1
      (PaymentRec.mk Option.none Option.none (some "Cash") 100) (by decide),
   old_payments_positive_new_unfiltered.2.1
      [(INVOICE_OLD_MUKURU_SHEET,
        (⟨fun p =>
            if p = (3, 1) then .str "Date"
            else if p = (4, 4) then .num 7 else .none, 4⟩ : Sheet))]
      (PaymentRec.mk Option.none Option.none (some "Mukuru") 7) (by decide)⟩

/-! ## `mapper.py` -/

/-- The `re.sub(r"(\d)(r)", r"\1/r", s)` pass of `_normalize_size`: insert
`"/"` before an `'r'` that directly follows a digit.  The scan visits
each adjacent pair left to right, exactly like the regex's
non-overlapping matches (an `'r'` can never start a new match). -/
def insertSlashBeforeR : List Char → List Char
  | [] => []
  | [c] => [c]
  | a :: b :: rest =>
      if a.isDigit = true ∧ b = 'r' then a :: '/' :: insertSlashBeforeR (b :: rest)
      else a :: insertSlashBeforeR (b :: rest)

/-- `.replace(" ", "")`: remove space characters (only `' '`). -/
def despace (l : List Char) : List Char := l.filter (fun c => c ≠ ' ')

/-- The cleanup stage of `_normalize_size`:
`size.strip().lower().replace(" ", "")`. -/
def cleanSize (l : List Char) : List Char := despace (lowerChars (stripChars l))

/-- `mapper._normalize_size`: `""` for falsy input, otherwise cleanup
followed by the slash-insertion pass. -/
def _normalize_size (s : Option String) : String :=
  match s with
  | Option.none => ""
  | some t => if t = "" then "" else ⟨insertSlashBeforeR (cleanSize t.data)⟩

/-- `mapper._normalize_str`: `value.strip().lower()`, `""` for falsy. -/
def _normalize_str (s : Option String) : String :=
  match s with
  | Option.none => ""
  | some t => if t = "" then "" else pyLower (pyStrip t)

/-- `TyreMapper._make_key`: `"|".join` of the normalized identity
attributes. -/
def _make_key (size type_ brand pattern : Option String) : String :=
  _normalize_size size ++ "|" ++ _normalize_str type_ ++ "|" ++
    _normalize_str brand ++ "|" ++ _normalize_str pattern

/-- The two lookup structures built by `TyreMapper.__init__`.  The Python
dicts are modelled as lookup functions: `_index` assignment is last-wins,
`_size_index` appends each tyre to its size bucket in registration order
(no mapper operation enumerates dict keys, so key order is irrelevant). -/
structure TyreMapper where
  tyres : List TyreRow
  index : String → Option ℕ
  size_index : String → List TyreRow

/-- `TyreMapper.__init__` over the catalog rows. -/
def TyreMapper.build (ts : List TyreRow) : TyreMapper :=
  { tyres := ts
    index := ts.foldl (fun f t =>
        Function.update f (_make_key (some t.size) t.type t.brand t.pattern)
          (some t.row))
      (fun _ => Option.none)
    size_index := ts.foldl (fun f t =>
        Function.update f (_normalize_size (some t.size))
          (f (_normalize_size (some t.size)) ++ [t]))
      (fun _ => []) }

/-- `TyreMapper.match_tyre`: exact key lookup. -/
def TyreMapper.match_tyre (m : TyreMapper)
    (size type_ brand pattern : Option String) : Option ℕ :=
  m.index (_make_key size type_ brand pattern)

/-- `TyreMapper.match_tyre_by_size`: all candidates sharing the
normalized size. -/
def TyreMapper.match_tyre_by_size (m : TyreMapper) (size : Option String) :
    List TyreRow :=
  m.size_index (_normalize_size size)

/-- `TyreMapper.match_tyre_by_size_and_type`: first candidate with the
same normalized type. -/
def TyreMapper.match_tyre_by_size_and_type (m : TyreMapper)
    (size type_ : Option String) : Option ℕ :=
  let candidates := m.match_tyre_by_size size
  let normType := _normalize_str type_
  (candidates.find? (fun t => _normalize_str t.type = normType)).map (·.row)

/-- `TyreMapper.match_tyre_fuzzy`: exact → size+type+brand → size+type →
first size-only candidate. -/
def TyreMapper.match_tyre_fuzzy (m : TyreMapper)
    (size type_ brand pattern : Option String) : Option ℕ :=
  match m.match_tyre size type_ brand pattern with
  | some r => some r
  | Option.none =>
    let candidates := m.match_tyre_by_size size
    let normType := _normalize_str type_
    let normBrand := _normalize_str brand
    match (candidates.find? (fun t =>
        _normalize_str t.type = normType ∧ _normalize_str t.brand = normBrand)).map
        (·.row) with
    | some r => some r
    | Option.none =>
      match m.match_tyre_by_size_and_type size type_ with
      | some r => some r
      | Option.none =>
        match candidates with
        | t :: _ => some t.row
        | [] => Option.none

/-! ## C7: fuzzy matching is deterministic, first-registered wins -/

/-- The size-bucket fold of `TyreMapper.__init__` preserves registration
order: looking up a key yields exactly the tyres with that normalized
size, in list order. -/
theorem size_index_fold (ts : List TyreRow) (f : String → List TyreRow)
    (k : String) :
    (ts.foldl (fun f t =>
        Function.update f (_normalize_size (some t.size))
          (f (_normalize_size (some t.size)) ++ [t])) f) k =
      f k ++ ts.filter (fun t => _normalize_size (some t.size) = k) := by
  induction ts generalizing f with
  | nil => simp
  | cons t ts ih =>
      simp only [List.foldl_cons, List.filter_cons]
      rw [ih]
      by_cases h : _normalize_size (some t.size) = k
      · simp [h, Function.update_apply]
      · simp [h, Function.update_apply, Ne.symm h]

/-- `_size_index` lookup = filter by normalized size. -/
theorem size_index_build (ts : List TyreRow) (k : String) :
    (TyreMapper.build ts).size_index k =
      ts.filter (fun t => _normalize_size (some t.size) = k) := by
  have h := size_index_fold ts (fun _ => []) k
  simpa [TyreMapper.build] using h

/-- **C7.** For a mapper built from a fixed catalog, when the exact match
fails and no candidate sharing the queried size matches the queried type
(so the size+type+brand and size+type stages also fail), a
`match_tyre_fuzzy` call returns the row of the *first-registered*
candidate for that size.  The embedding is a pure function of its
arguments, so two calls with the same arguments necessarily return this
same row — the result can never alternate between candidates. -/
theorem match_tyre_fuzzy_first_registered
    (ts : List TyreRow) (size type_ brand pattern : Option String)
    (hexact : (TyreMapper.build ts).match_tyre size type_ brand pattern =
      Option.none)
    (hne : ts.filter (fun t =>
      _normalize_size (some t.size) = _normalize_size size) ≠ [])
    (hsec : ∀ t ∈ ts.filter (fun t =>
        _normalize_size (some t.size) = _normalize_size size),
      _normalize_str t.type ≠ _normalize_str type_) :
    (TyreMapper.build ts).match_tyre_fuzzy size type_ brand pattern =
      (ts.filter (fun t =>
        _normalize_size (some t.size) = _normalize_size size)).head?.map
        (fun t => t.row) := by
  have hcand : (TyreMapper.build ts).match_tyre_by_size size =
      ts.filter (fun t => _normalize_size (some t.size) = _normalize_size size) :=
    size_index_build ts (_normalize_size size)
  have hfind2 : (ts.filter (fun t =>
      _normalize_size (some t.size) = _normalize_size size)).find? (fun t =>
        _normalize_str t.type = _normalize_str type_ ∧
        _normalize_str t.brand = _normalize_str brand) = Option.none := by
    rw [List.find?_eq_none]
    intro t ht hp
    simp only [decide_eq_true_eq] at hp
    exact hsec t ht hp.1
  have hfind3 : (ts.filter (fun t =>
      _normalize_size (some t.size) = _normalize_size size)).find? (fun t =>
        _normalize_str t.type = _normalize_str type_) = Option.none := by
    rw [List.find?_eq_none]
    intro t ht hp
    simp only [decide_eq_true_eq] at hp
    exact hsec t ht hp
  unfold TyreMapper.match_tyre_fuzzy
  rw [hexact]
  simp only [TyreMapper.match_tyre_by_size_and_type, hcand, hfind2, hfind3,
    Option.map_none]
  cases hF : ts.filter (fun t =>
      _normalize_size (some t.size) = _normalize_size size) with
  | nil => exact absurd hF hne
  | cons t rest => simp [hF]

/-- A minimal catalog entry for the C7 scenario. -/
def tyreCandA : TyreRow :=
  { row := 2, size := "195/70R14", type := some "New", brand := some "GT"
    pattern := some "P1", li_sr := Option.none, tyre_cost := 0
    original_price := 0, suggested_price := 0, initial_stock := 0
    added_stock := 0, daily_sales := [] }

/-- A second catalog entry with the same size, different category. -/
def tyreCandB : TyreRow :=
  { row := 3, size := "195/70R14", type := some "Second Hand"
    brand := some "DL", pattern := some "P2", li_sr := Option.none
    tyre_cost := 0, original_price := 0, suggested_price := 0
    initial_stock := 0, added_stock := 0, daily_sales := [] }

/-- Concrete instantiation of C7: two entries share size `195/70R14`; a
query with no type/brand/pattern hints resolves to the first-registered
row (2, not 3). -/
theorem match_tyre_fuzzy_first_registered_witness :
    (TyreMapper.build [tyreCandA, tyreCandB]).match_tyre_fuzzy
      (some "195/70R14") Option.none Option.none Option.none = some 2 :=
  (match_tyre_fuzzy_first_registered [tyreCandA, tyreCandB]
      (some "195/70R14") Option.none Option.none Option.none
      (by decide) (by decide) (by decide)).trans (by decide)

/-! ## C6 infrastructure: normalization is slash-insensitive and
idempotent -/

/-- The ASCII case pairs handled by `lowerChar`. -/
def upperLowerPairs : List (Char × Char) :=
  [('A','a'), ('B','b'), ('C','c'), ('D','d'), ('E','e'), ('F','f'),
   ('G','g'), ('H','h'), ('I','i'), ('J','j'), ('K','k'), ('L','l'),
   ('M','m'), ('N','n'), ('O','o'), ('P','p'), ('Q','q'), ('R','r'),
   ('S','s'), ('T','t'), ('U','u'), ('V','v'), ('W','w'), ('X','x'),
   ('Y','y'), ('Z','z')]

/-- `lowerChar` either fixes its argument or maps it along one of the 26
case pairs. -/
theorem lowerChar_spec (c : Char) :
    lowerChar c = c ∨ (c, lowerChar c) ∈ upperLowerPairs := by
  unfold lowerChar
  split <;> simp_all [upperLowerPairs]

/-- `lowerChar` is idempotent. -/
theorem lowerChar_idem (c : Char) : lowerChar (lowerChar c) = lowerChar c := by
  rcases lowerChar_spec c with h | h
  · rw [h]
    exact h
  · have key : ∀ p ∈ upperLowerPairs, lowerChar p.2 = p.2 := by decide
    exact key (c, lowerChar c) h

/-- `lowerChar` does not change whitespace-ness. -/
theorem pyIsSpace_lowerChar (c : Char) :
    pyIsSpace (lowerChar c) = pyIsSpace c := by
  rcases lowerChar_spec c with h | h
  · rw [h]
  · have key : ∀ p ∈ upperLowerPairs, pyIsSpace p.2 = pyIsSpace p.1 := by decide
    exact key (c, lowerChar c) h

/-- `insertSlashBeforeR` keeps the head. -/
theorem head?_insertSlashBeforeR (l : List Char) :
    (insertSlashBeforeR l).head? = l.head? := by
  rcases l with _ | ⟨a, l⟩
  · rfl
  rcases l with _ | ⟨b, rest⟩
  · rfl
  unfold insertSlashBeforeR
  split <;> rfl

/-- `insertSlashBeforeR` maps nonempty lists to nonempty lists. -/
theorem insertSlashBeforeR_ne_nil {l : List Char} (h : l ≠ []) :
    insertSlashBeforeR l ≠ [] := by
  intro hnil
  have h1 := head?_insertSlashBeforeR l
  rw [hnil] at h1
  rcases l with _ | ⟨a, l⟩
  · exact h rfl
  · simp at h1

/-- Dropping a head in front of a nonempty list does not change the last
element. -/
theorem getLast?_cons_ne_nil {c : Char} {l : List Char} (h : l ≠ []) :
    (c :: l).getLast? = l.getLast? := by
  rcases l with _ | ⟨x, xs⟩
  · exact absurd rfl h
  · exact List.getLast?_cons_cons

/-- `insertSlashBeforeR` keeps the last element. -/
theorem getLast?_insertSlashBeforeR (l : List Char) :
    (insertSlashBeforeR l).getLast? = l.getLast? := by
  induction l with
  | nil => rfl
  | cons a l ih =>
      rcases l with _ | ⟨b, rest⟩
      · rfl
      unfold insertSlashBeforeR
      have hne : insertSlashBeforeR (b :: rest) ≠ [] :=
        insertSlashBeforeR_ne_nil (by simp)
      split
      · rw [List.getLast?_cons_cons, getLast?_cons_ne_nil hne, ih,
          List.getLast?_cons_cons]
      · rw [getLast?_cons_ne_nil hne, ih, List.getLast?_cons_cons]

/-- Every character of `insertSlashBeforeR l` is a character of `l` or a
slash. -/
theorem mem_insertSlashBeforeR {c : Char} :
    ∀ {l : List Char}, c ∈ insertSlashBeforeR l → c ∈ l ∨ c = '/'
  | [], h => absurd h (by simp [insertSlashBeforeR])
  | [a], h => Or.inl h
  | a :: b :: rest, h => by
      unfold insertSlashBeforeR at h
      split at h
      · rw [List.mem_cons] at h
        rcases h with rfl | h
        · exact Or.inl (by simp)
        rw [List.mem_cons] at h
        rcases h with rfl | h
        · exact Or.inr rfl
        · rcases mem_insertSlashBeforeR h with hm | hs
          · exact Or.inl (List.mem_cons_of_mem a hm)
          · exact Or.inr hs
      · rw [List.mem_cons] at h
        rcases h with rfl | h
        · exact Or.inl (by simp)
        · rcases mem_insertSlashBeforeR h with hm | hs
          · exact Or.inl (List.mem_cons_of_mem a hm)
          · exact Or.inr hs

/-- No whitespace at either end of a character list. -/
def noEdgeSpace (l : List Char) : Prop :=
  (∀ c ∈ l.head?, pyIsSpace c = false) ∧ (∀ c ∈ l.getLast?, pyIsSpace c = false)

/-- The head surviving `dropWhile` fails the predicate. -/
theorem head?_dropWhile_prop (p : Char → Bool) (l : List Char) :
    ∀ c ∈ (l.dropWhile p).head?, p c = false := by
  induction l with
  | nil => simp
  | cons a t ih =>
      rw [List.dropWhile_cons]
      split
      · exact ih
      · rename_i hpa
        intro c hc
        simp only [List.head?_cons, Option.mem_def, Option.some.injEq] at hc
        subst hc
        simpa using hpa

/-- `dropWhile` keeps the last element when its result is nonempty. -/
theorem getLast?_dropWhile_ne_nil (p : Char → Bool) (l : List Char)
    (h : l.dropWhile p ≠ []) : (l.dropWhile p).getLast? = l.getLast? := by
  induction l with
  | nil => exact absurd rfl h
  | cons a t ih =>
      rw [List.dropWhile_cons] at h ⊢
      split at h <;> rename_i hpa
      · rw [if_pos hpa]
        have ht : t ≠ [] := by
          intro h0
          rw [h0] at h
          exact h rfl
        rw [ih h, getLast?_cons_ne_nil ht]
      · rw [if_neg hpa]

/-- `strip` leaves no whitespace at the edges. -/
theorem noEdgeSpace_strip (l : List Char) : noEdgeSpace (stripChars l) := by
  unfold stripChars
  constructor
  · intro c hc
    rw [List.head?_reverse] at hc
    have hy : ((l.dropWhile pyIsSpace).reverse.dropWhile pyIsSpace) ≠ [] := by
      intro h0
      rw [h0] at hc
      cases hc
    rw [getLast?_dropWhile_ne_nil _ _ hy, List.getLast?_reverse] at hc
    exact head?_dropWhile_prop pyIsSpace l c hc
  · intro c hc
    rw [List.getLast?_reverse] at hc
    exact head?_dropWhile_prop pyIsSpace (l.dropWhile pyIsSpace).reverse c hc

/-- Lower-casing preserves the edge condition. -/
theorem noEdgeSpace_lower {l : List Char} (h : noEdgeSpace l) :
    noEdgeSpace (lowerChars l) := by
  constructor
  · intro c hc
    rw [lowerChars, List.head?_map] at hc
    rcases Option.map_eq_some'.mp hc with ⟨x, hx, rfl⟩
    rw [pyIsSpace_lowerChar]
    exact h.1 x hx
  · intro c hc
    rw [lowerChars, List.getLast?_map] at hc
    rcases Option.map_eq_some'.mp hc with ⟨x, hx, rfl⟩
    rw [pyIsSpace_lowerChar]
    exact h.2 x hx

/-- A non-whitespace head survives `despace` as the head. -/
theorem head?_despace_prop {l : List Char}
    (h : ∀ c ∈ l.head?, pyIsSpace c = false) :
    ∀ c ∈ (despace l).head?, pyIsSpace c = false := by
  induction l with
  | nil => simp [despace]
  | cons a t ih =>
      have ha : pyIsSpace a = false := h a (by simp)
      have hane : a ≠ ' ' := by
        intro h0
        rw [h0] at ha
        exact absurd ha (by decide)
      rw [despace, List.filter_cons, if_pos (by simpa using hane)]
      intro c hc
      simp only [List.head?_cons, Option.mem_def, Option.some.injEq] at hc
      subst hc
      exact ha

/-- `despace` preserves the edge condition. -/
theorem noEdgeSpace_despace {l : List Char} (h : noEdgeSpace l) :
    noEdgeSpace (despace l) := by
  constructor
  · exact head?_despace_prop h.1
  · intro c hc
    rw [← List.head?_reverse] at hc
    rw [despace, ← List.filter_reverse] at hc
    have h1 : ∀ c ∈ l.reverse.head?, pyIsSpace c = false := by
      intro c hc'
      rw [List.head?_reverse] at hc'
      exact h.2 c hc'
    exact head?_despace_prop h1 c hc

/-- `insertSlashBeforeR` preserves the edge condition. -/
theorem noEdgeSpace_insertSlash {l : List Char} (h : noEdgeSpace l) :
    noEdgeSpace (insertSlashBeforeR l) := by
  constructor
  · intro c hc
    rw [head?_insertSlashBeforeR] at hc
    exact h.1 c hc
  · intro c hc
    rw [getLast?_insertSlashBeforeR] at hc
    exact h.2 c hc

/-- `strip` is the identity on edge-clean lists. -/
theorem strip_fix {l : List Char} (h : noEdgeSpace l) : stripChars l = l := by
  have h1 : l.dropWhile pyIsSpace = l := by
    rcases l with _ | ⟨a, t⟩
    · rfl
    · rw [List.dropWhile_cons, if_neg]
      simp [h.1 a (by simp)]
  unfold stripChars
  rw [h1]
  have h2 : l.reverse.dropWhile pyIsSpace = l.reverse := by
    rcases hr : l.reverse with _ | ⟨a, t⟩
    · rfl
    · rw [List.dropWhile_cons, if_neg]
      have : a ∈ l.reverse.head? := by rw [hr]; simp
      rw [List.head?_reverse] at this
      simp [h.2 a this]
  rw [h2, List.reverse_reverse]

/-- Lower-casing is the identity on lists of `lowerChar`-fixed chars. -/
theorem lower_fix {l : List Char} (h : ∀ c ∈ l, lowerChar c = c) :
    lowerChars l = l := by
  induction l with
  | nil => rfl
  | cons a t ih =>
      rw [lowerChars, List.map_cons, h a (by simp)]
      congr 1
      exact ih (fun c hc => h c (List.mem_cons_of_mem a hc))

/-- `despace` is the identity on space-free lists. -/
theorem despace_fix {l : List Char} (h : ∀ c ∈ l, c ≠ ' ') :
    despace l = l :=
  List.filter_eq_self.mpr (fun c hc => by simpa using h c hc)

/-- No digit is immediately followed by `'r'`. -/
def noDigitR : List Char → Prop
  | [] => True
  | [_] => True
  | a :: b :: rest => ¬(a.isDigit = true ∧ b = 'r') ∧ noDigitR (b :: rest)

/-- Build `noDigitR` from a head condition and a tail. -/
theorem noDigitR_cons {x : Char} {l : List Char}
    (hhead : ∀ y ∈ l.head?, ¬(x.isDigit = true ∧ y = 'r'))
    (hl : noDigitR l) : noDigitR (x :: l) := by
  rcases l with _ | ⟨y, rest⟩
  · trivial
  · exact ⟨hhead y (by simp), hl⟩

/-- The output of `insertSlashBeforeR` has no digit-`'r'` adjacency left:
every such pair received a separating slash. -/
theorem insertSlash_noDigitR (l : List Char) :
    noDigitR (insertSlashBeforeR l) := by
  induction l with
  | nil => trivial
  | cons a l ih =>
      rcases l with _ | ⟨b, rest⟩
      · trivial
      unfold insertSlashBeforeR
      split <;> rename_i hcond
      · refine noDigitR_cons ?_ (noDigitR_cons ?_ ih)
        · intro y hy
          simp only [List.head?_cons, Option.mem_def, Option.some.injEq] at hy
          subst hy
          simp
        · intro y hy
          rw [head?_insertSlashBeforeR] at hy
          simp only [List.head?_cons, Option.mem_def, Option.some.injEq] at hy
          subst hy
          simp
      · refine noDigitR_cons ?_ ih
        intro y hy
        rw [head?_insertSlashBeforeR] at hy
        simp only [List.head?_cons, Option.mem_def, Option.some.injEq] at hy
        subst hy
        exact hcond

/-- `insertSlashBeforeR` is the identity on `noDigitR` lists. -/
theorem insertSlash_fix : ∀ {l : List Char}, noDigitR l → insertSlashBeforeR l = l
  | [], _ => rfl
  | [c], _ => rfl
  | a :: b :: rest, h => by
      unfold insertSlashBeforeR
      rw [if_neg h.1]
      congr 1
      exact insertSlash_fix h.2

/-- One step of `insertSlashBeforeR` only looks at the head of the tail:
equal heads and equal processed tails give equal results. -/
theorem insertSlash_cons_congr (a : Char) {l₁ l₂ : List Char}
    (hhead : l₁.head? = l₂.head?)
    (hrec : insertSlashBeforeR l₁ = insertSlashBeforeR l₂) :
    insertSlashBeforeR (a :: l₁) = insertSlashBeforeR (a :: l₂) := by
  rcases l₁ with _ | ⟨b, t⟩
  · rcases l₂ with _ | ⟨b', t'⟩
    · rfl
    · simp at hhead
  · rcases l₂ with _ | ⟨b', t'⟩
    · simp at hhead
    · have hb : b = b' := by simpa using hhead
      subst hb
      unfold insertSlashBeforeR
      split_ifs with hc <;> rw [hrec]

/-- The two-cons unfolding of `insertSlashBeforeR`. -/
theorem insertSlash_cons₂ (a b : Char) (rest : List Char) :
    insertSlashBeforeR (a :: b :: rest) =
      if a.isDigit = true ∧ b = 'r' then
        a :: '/' :: insertSlashBeforeR (b :: rest)
      else a :: insertSlashBeforeR (b :: rest) := rfl

/-- Inserting a slash between a digit and the following `'r'` does not
change the normalization result. -/
theorem insertSlash_digit_r (B : List Char) (d : Char) (hd : d.isDigit = true) :
    ∀ A : List Char,
      insertSlashBeforeR (A ++ d :: 'r' :: B) =
        insertSlashBeforeR (A ++ d :: '/' :: 'r' :: B)
  | [] => by
      simp only [List.nil_append]
      rw [insertSlash_cons₂ d 'r' B, insertSlash_cons₂ d '/' ('r' :: B),
        insertSlash_cons₂ '/' 'r' B,
        if_pos ⟨hd, rfl⟩,
        if_neg (show ¬(d.isDigit = true ∧ '/' = 'r') by simp),
        if_neg (show ¬(('/' : Char).isDigit = true ∧ 'r' = 'r') by decide)]
  | a :: A' => by
      simp only [List.cons_append]
      refine insertSlash_cons_congr a ?_ (insertSlash_digit_r B d hd A')
      rcases A' with _ | ⟨x, xs⟩ <;> rfl

/-- **C6.** `_normalize_size` collapses size strings that differ only by
the presence of a separator `'/'` between a digit and the following
size-designator letter (the comparison is made after the case/whitespace
cleanup, so the two strings may also differ in case and spacing), and it
is idempotent — in particular it is the identity on its own outputs. -/
theorem normalize_size_slash_insensitive_and_idempotent :
    (∀ (s₁ s₂ : String) (A B : List Char) (d : Char),
      d.isDigit = true →
      cleanSize s₁.data = A ++ d :: 'r' :: B →
      cleanSize s₂.data = A ++ d :: '/' :: 'r' :: B →
      _normalize_size (some s₁) = _normalize_size (some s₂)) ∧
    (∀ s : Option String,
      _normalize_size (some (_normalize_size s)) = _normalize_size s) := by
  constructor
  · intro s₁ s₂ A B d hd h1 h2
    have hs1 : s₁ ≠ "" := by
      intro h0
      subst h0
      have := congrArg List.length h1
      simp [cleanSize, despace, lowerChars, stripChars] at this
      omega
    have hs2 : s₂ ≠ "" := by
      intro h0
      subst h0
      have := congrArg List.length h2
      simp [cleanSize, despace, lowerChars, stripChars] at this
      omega
    simp only [_normalize_size, if_neg hs1, if_neg hs2]
    rw [h1, h2]
    exact congrArg String.mk (insertSlash_digit_r B d hd A)
  · intro s
    rcases s with _ | t
    · rfl
    by_cases ht : t = ""
    · subst ht
      rfl
    have key : _normalize_size (some t) = ⟨insertSlashBeforeR (cleanSize t.data)⟩ := by
      simp [_normalize_size, ht]
    rw [key]
    by_cases hM0 : (⟨insertSlashBeforeR (cleanSize t.data)⟩ : String) = ""
    · rw [_normalize_size.eq_def]
      simp only [if_pos hM0]
      exact hM0.symm
    · simp only [_normalize_size, if_neg hM0]
      have hL : noEdgeSpace (cleanSize t.data) :=
        noEdgeSpace_despace (noEdgeSpace_lower (noEdgeSpace_strip _))
      have hM_edge : noEdgeSpace (insertSlashBeforeR (cleanSize t.data)) :=
        noEdgeSpace_insertSlash hL
      have hlower_fix : ∀ c ∈ insertSlashBeforeR (cleanSize t.data),
          lowerChar c = c := by
        intro c hc
        rcases mem_insertSlashBeforeR hc with hcl | rfl
        · have hmem : c ∈ lowerChars (stripChars t.data) :=
            List.mem_of_mem_filter hcl
          obtain ⟨x, -, rfl⟩ := List.mem_map.mp hmem
          exact lowerChar_idem x
        · decide
      have hspace_fix : ∀ c ∈ insertSlashBeforeR (cleanSize t.data),
          c ≠ ' ' := by
        intro c hc
        rcases mem_insertSlashBeforeR hc with hcl | rfl
        · have := List.of_mem_filter hcl
          simpa using this
        · decide
      have hclean : cleanSize (insertSlashBeforeR (cleanSize t.data)) =
          insertSlashBeforeR (cleanSize t.data) := by
        show despace (lowerChars (stripChars (insertSlashBeforeR (cleanSize t.data)))) =
          insertSlashBeforeR (cleanSize t.data)
        rw [strip_fix hM_edge, lower_fix hlower_fix, despace_fix hspace_fix]
      rw [hclean]
      exact congrArg String.mk (insertSlash_fix (insertSlash_noDigitR _))

/-- Concrete instantiation of C6: `"185/65R15"` and `"185/65/R15"`
normalize to the same key, and normalization fixes its own output. -/
theorem normalize_size_slash_insensitive_witness :
    _normalize_size (some "185/65R15") = _normalize_size (some "185/65/R15") ∧
    _normalize_size (some (_normalize_size (some "185/65R15"))) =
      _normalize_size (some "185/65R15") :=
  ⟨normalize_size_slash_insensitive_and_idempotent.1 "185/65R15" "185/65/R15"
      ['1', '8', '5', '/', '6'] ['1', '5'] '5' (by decide) (by decide) (by decide),
   normalize_size_slash_insensitive_and_idempotent.2 (some "185/65R15")⟩

/-! ## `sync.py` -/

/-- `SyncResult` (frozen dataclass). -/
structure SyncResult where
  success : Bool
  records_processed : ℕ
  errors : List String
  warnings : List String
  deriving DecidableEq

/-- The day loop of `sync_to_inventory`: one `write_daily_sales` call per
day; a success counts the day's sales, a raised error appends one error
entry and counts nothing.  (`sales_by_day` is iterated in its sorted dict
order; the list argument is that iteration sequence.) -/
def syncInvAux (month : ℕ) :
    FS → List String → ℕ → List (ℕ × List SaleEntry) → FS × List String × ℕ
  | fs, errs, tot, [] => (fs, errs, tot)
  | fs, errs, tot, (day, sales) :: rest =>
      let p := write_daily_sales fs month day sales
      match p.2 with
      | .ok _ => syncInvAux month p.1 errs (tot + sales.length) rest
      | .error e => syncInvAux month p.1 (errs ++ [s!"Day {day}: {e}"]) tot rest

/-- `SyncManager.sync_to_inventory`. -/
def sync_to_inventory (fs : FS) (month : ℕ)
    (salesByDay : List (ℕ × List SaleEntry)) : FS × SyncResult :=
  let t := syncInvAux month fs [] 0 salesByDay
  (t.1, { success := t.2.1.isEmpty, records_processed := t.2.2,
          errors := t.2.1, warnings := [] })

/-- The sales loop of `sync_to_invoice`. -/
def syncSalesAux : FS → List String → ℕ → List SaleDict → FS × List String × ℕ
  | fs, errs, tot, [] => (fs, errs, tot)
  | fs, errs, tot, sale :: rest =>
      let p := append_invoice_sale fs sale
      match p.2 with
      | .ok _ => syncSalesAux p.1 errs (tot + 1) rest
      | .error e => syncSalesAux p.1 (errs ++ [s!"Sale error: {e}"]) tot rest

/-- The payments loop of `sync_to_invoice`. -/
def syncPaymentsAux : FS → List String → ℕ → List PaymentDict → FS × List String × ℕ
  | fs, errs, tot, [] => (fs, errs, tot)
  | fs, errs, tot, payment :: rest =>
      let p := append_invoice_payment fs payment
      match p.2 with
      | .ok _ => syncPaymentsAux p.1 errs (tot + 1) rest
      | .error e => syncPaymentsAux p.1 (errs ++ [s!"Payment error: {e}"]) tot rest

/-- `SyncManager.sync_to_invoice`. -/
def sync_to_invoice (fs : FS) (sales : List SaleDict)
    (payments : List PaymentDict) : FS × SyncResult :=
  let t1 := syncSalesAux fs [] 0 sales
  let t2 := syncPaymentsAux t1.1 t1.2.1 t1.2.2 payments
  (t2.1, { success := t2.2.1.isEmpty, records_processed := t2.2.2,
           errors := t2.2.1, warnings := [] })

/-! ## C10: `SyncResult` invariants -/

/-- Accumulator lemma for the inventory day loop. -/
theorem syncInvAux_acc (month : ℕ) (l : List (ℕ × List SaleEntry)) :
    ∀ (fs : FS) (errs : List String) (tot : ℕ),
      syncInvAux month fs errs tot l =
        ((syncInvAux month fs [] 0 l).1,
         errs ++ (syncInvAux month fs [] 0 l).2.1,
         tot + (syncInvAux month fs [] 0 l).2.2) := by
  induction l with
  | nil => intro fs errs tot; simp [syncInvAux]
  | cons p rest ih =>
      intro fs errs tot
      rcases p with ⟨day, sales⟩
      simp only [syncInvAux]
      rcases h : (write_daily_sales fs month day sales).2 with e | u
      · simp only []
        rw [ih _ (errs ++ [s!"Day {day}: {e}"]) tot,
          ih _ ([] ++ [s!"Day {day}: {e}"]) 0]
        simp
      · simp only []
        rw [ih _ errs (tot + sales.length),
          ih _ [] (0 + sales.length)]
        simp [Nat.add_comm, Nat.add_assoc, Nat.add_left_comm]

/-- Accumulator lemma for the invoice sales loop. -/
theorem syncSalesAux_acc (l : List SaleDict) :
    ∀ (fs : FS) (errs : List String) (tot : ℕ),
      syncSalesAux fs errs tot l =
        ((syncSalesAux fs [] 0 l).1,
         errs ++ (syncSalesAux fs [] 0 l).2.1,
         tot + (syncSalesAux fs [] 0 l).2.2) := by
  induction l with
  | nil => intro fs errs tot; simp [syncSalesAux]
  | cons sale rest ih =>
      intro fs errs tot
      simp only [syncSalesAux]
      rcases h : (append_invoice_sale fs sale).2 with e | u
      · simp only []
        rw [ih _ (errs ++ [s!"Sale error: {e}"]) tot,
          ih _ ([] ++ [s!"Sale error: {e}"]) 0]
        simp
      · simp only []
        rw [ih _ errs (tot + 1), ih _ [] (0 + 1)]
        simp [Nat.add_comm, Nat.add_assoc, Nat.add_left_comm]

/-- Accumulator lemma for the invoice payments loop. -/
theorem syncPaymentsAux_acc (l : List PaymentDict) :
    ∀ (fs : FS) (errs : List String) (tot : ℕ),
      syncPaymentsAux fs errs tot l =
        ((syncPaymentsAux fs [] 0 l).1,
         errs ++ (syncPaymentsAux fs [] 0 l).2.1,
         tot + (syncPaymentsAux fs [] 0 l).2.2) := by
  induction l with
  | nil => intro fs errs tot; simp [syncPaymentsAux]
  | cons payment rest ih =>
      intro fs errs tot
      simp only [syncPaymentsAux]
      rcases h : (append_invoice_payment fs payment).2 with e | u
      · simp only []
        rw [ih _ (errs ++ [s!"Payment error: {e}"]) tot,
          ih _ ([] ++ [s!"Payment error: {e}"]) 0]
        simp
      · simp only []
        rw [ih _ errs (tot + 1), ih _ [] (0 + 1)]
        simp [Nat.add_comm, Nat.add_assoc, Nat.add_left_comm]

/-- `sync_to_invoice` in terms of its two loops, each started on an
empty accumulator. -/
theorem sync_to_invoice_unfold (fs : FS) (sales : List SaleDict)
    (payments : List PaymentDict) :
    (sync_to_invoice fs sales payments).2.records_processed =
      (syncSalesAux fs [] 0 sales).2.2 +
        (syncPaymentsAux (syncSalesAux fs [] 0 sales).1 [] 0 payments).2.2 ∧
    (sync_to_invoice fs sales payments).2.errors =
      (syncSalesAux fs [] 0 sales).2.1 ++
        (syncPaymentsAux (syncSalesAux fs [] 0 sales).1 [] 0 payments).2.1 := by
  constructor <;>
    (simp only [sync_to_invoice]
     rw [syncPaymentsAux_acc payments])

/-- **C10.** `SyncResult` invariants of `sync_to_inventory` and
`sync_to_invoice`: the success flag is set exactly when the error list is
empty, and `records_processed` counts exactly the records whose
individual write call returned without raising — a successful day adds
its sales count (a successful sale or payment adds one) and leaves the
errors unchanged, while a failing one adds exactly one error entry and
is not counted.  The step equations below form a complete recursion for
both functions on every input: the empty-input base cases, the first
sale record of `sync_to_invoice` under an arbitrary trailing payment
list, and — once the sales list is exhausted — the first payment
record, so `records_processed` and `errors` are determined for all
sales *and* payment lists by the outcomes of the individual calls. -/
theorem sync_result_invariants :
    (∀ (fs : FS) (month : ℕ) (l : List (ℕ × List SaleEntry)),
      (sync_to_inventory fs month l).2.success = true ↔
        (sync_to_inventory fs month l).2.errors = []) ∧
    (∀ (fs : FS) (sales : List SaleDict) (payments : List PaymentDict),
      (sync_to_invoice fs sales payments).2.success = true ↔
        (sync_to_invoice fs sales payments).2.errors = []) ∧
    (∀ (fs : FS) (month : ℕ),
      (sync_to_inventory fs month []).2.records_processed = 0 ∧
      (sync_to_inventory fs month []).2.errors = []) ∧
    (∀ (fs : FS) (month day : ℕ) (sales : List SaleEntry)
        (rest : List (ℕ × List SaleEntry)),
      (write_daily_sales fs month day sales).2 = .ok () →
      (sync_to_inventory fs month ((day, sales) :: rest)).2.records_processed =
        sales.length + (sync_to_inventory (write_daily_sales fs month day sales).1
          month rest).2.records_processed ∧
      (sync_to_inventory fs month ((day, sales) :: rest)).2.errors =
        (sync_to_inventory (write_daily_sales fs month day sales).1
          month rest).2.errors) ∧
    (∀ (fs : FS) (month day : ℕ) (sales : List SaleEntry)
        (rest : List (ℕ × List SaleEntry)) (e : String),
      (write_daily_sales fs month day sales).2 = .error e →
      (sync_to_inventory fs month ((day, sales) :: rest)).2.records_processed =
        (sync_to_inventory (write_daily_sales fs month day sales).1
          month rest).2.records_processed ∧
      (sync_to_inventory fs month ((day, sales) :: rest)).2.errors =
        s!"Day {day}: {e}" ::
          (sync_to_inventory (write_daily_sales fs month day sales).1
            month rest).2.errors) ∧
    (∀ (fs : FS),
      (sync_to_invoice fs [] []).2.records_processed = 0 ∧
      (sync_to_invoice fs [] []).2.errors = []) ∧
    (∀ (fs : FS) (sale : SaleDict) (rest : List SaleDict)
        (payments : List PaymentDict),
      (append_invoice_sale fs sale).2 = .ok () →
      (sync_to_invoice fs (sale :: rest) payments).2.records_processed =
        1 + (sync_to_invoice (append_invoice_sale fs sale).1
          rest payments).2.records_processed ∧
      (sync_to_invoice fs (sale :: rest) payments).2.errors =
        (sync_to_invoice (append_invoice_sale fs sale).1
          rest payments).2.errors) ∧
    (∀ (fs : FS) (sale : SaleDict) (rest : List SaleDict)
        (payments : List PaymentDict) (e : String),
      (append_invoice_sale fs sale).2 = .error e →
      (sync_to_invoice fs (sale :: rest) payments).2.records_processed =
        (sync_to_invoice (append_invoice_sale fs sale).1
          rest payments).2.records_processed ∧
      (sync_to_invoice fs (sale :: rest) payments).2.errors =
        s!"Sale error: {e}" ::
          (sync_to_invoice (append_invoice_sale fs sale).1
            rest payments).2.errors) ∧
    (∀ (fs : FS) (payment : PaymentDict) (rest : List PaymentDict),
      (append_invoice_payment fs payment).2 = .ok () →
      (sync_to_invoice fs [] (payment :: rest)).2.records_processed =
        1 + (sync_to_invoice (append_invoice_payment fs payment).1
          [] rest).2.records_processed ∧
      (sync_to_invoice fs [] (payment :: rest)).2.errors =
        (sync_to_invoice (append_invoice_payment fs payment).1
          [] rest).2.errors) ∧
    (∀ (fs : FS) (payment : PaymentDict) (rest : List PaymentDict) (e : String),
      (append_invoice_payment fs payment).2 = .error e →
      (sync_to_invoice fs [] (payment :: rest)).2.records_processed =
        (sync_to_invoice (append_invoice_payment fs payment).1
          [] rest).2.records_processed ∧
      (sync_to_invoice fs [] (payment :: rest)).2.errors =
        s!"Payment error: {e}" ::
          (sync_to_invoice (append_invoice_payment fs payment).1
            [] rest).2.errors) := by
  have hinv_nil : ∀ (fs : FS) (month : ℕ) (l : List (ℕ × List SaleEntry)),
      (sync_to_inventory fs month l).2 =
        { success := (syncInvAux month fs [] 0 l).2.1.isEmpty,
          records_processed := (syncInvAux month fs [] 0 l).2.2,
          errors := (syncInvAux month fs [] 0 l).2.1, warnings := [] } := by
    intro fs month l
    rfl
  refine ⟨?_, ?_, ?_, ?_, ?_, ?_, ?_, ?_, ?_, ?_⟩
  · intro fs month l
    rw [hinv_nil]
    exact List.isEmpty_iff
  · intro fs sales payments
    constructor
    · intro h
      exact List.isEmpty_iff.mp h
    · intro h
      exact List.isEmpty_iff.mpr h
  · intro fs month
    exact ⟨rfl, rfl⟩
  · intro fs month day sales rest h
    constructor <;>
      (simp only [sync_to_inventory, syncInvAux, h]
       rw [syncInvAux_acc month rest _ [] (0 + sales.length)]
       simp [Nat.add_comm])
  · intro fs month day sales rest e h
    constructor <;>
      (simp only [sync_to_inventory, syncInvAux, h]
       rw [syncInvAux_acc month rest _ ([] ++ [s!"Day {day}: {e}"]) 0]
       simp)
  · intro fs
    exact ⟨rfl, rfl⟩
  · intro fs sale rest payments h
    obtain ⟨hr1, he1⟩ := sync_to_invoice_unfold fs (sale :: rest) payments
    obtain ⟨hr2, he2⟩ :=
      sync_to_invoice_unfold (append_invoice_sale fs sale).1 rest payments
    have hS : syncSalesAux fs [] 0 (sale :: rest) =
        ((syncSalesAux (append_invoice_sale fs sale).1 [] 0 rest).1,
         (syncSalesAux (append_invoice_sale fs sale).1 [] 0 rest).2.1,
         1 + (syncSalesAux (append_invoice_sale fs sale).1 [] 0 rest).2.2) := by
      simp only [syncSalesAux, h]
      rw [syncSalesAux_acc rest]
      simp [Nat.add_comm]
    constructor
    · rw [hr1, hr2, hS]
      dsimp only
      omega
    · rw [he1, he2, hS]
  · intro fs sale rest payments e h
    obtain ⟨hr1, he1⟩ := sync_to_invoice_unfold fs (sale :: rest) payments
    obtain ⟨hr2, he2⟩ :=
      sync_to_invoice_unfold (append_invoice_sale fs sale).1 rest payments
    have hS : syncSalesAux fs [] 0 (sale :: rest) =
        ((syncSalesAux (append_invoice_sale fs sale).1 [] 0 rest).1,
         s!"Sale error: {e}" ::
           (syncSalesAux (append_invoice_sale fs sale).1 [] 0 rest).2.1,
         (syncSalesAux (append_invoice_sale fs sale).1 [] 0 rest).2.2) := by
      simp only [syncSalesAux, h]
      rw [syncSalesAux_acc rest]
      simp
    constructor
    · rw [hr1, hr2, hS]
    · rw [he1, he2, hS]
      dsimp only
      simp
  · intro fs payment rest h
    obtain ⟨hr1, he1⟩ := sync_to_invoice_unfold fs [] (payment :: rest)
    obtain ⟨hr2, he2⟩ :=
      sync_to_invoice_unfold (append_invoice_payment fs payment).1 [] rest
    have hP : syncPaymentsAux fs [] 0 (payment :: rest) =
        ((syncPaymentsAux (append_invoice_payment fs payment).1 [] 0 rest).1,
         (syncPaymentsAux (append_invoice_payment fs payment).1 [] 0 rest).2.1,
         1 + (syncPaymentsAux (append_invoice_payment fs payment).1 [] 0 rest).2.2) := by
      simp only [syncPaymentsAux, h]
      rw [syncPaymentsAux_acc rest]
      simp [Nat.add_comm]
    constructor
    · rw [hr1, hr2]
      simp only [syncSalesAux]
      rw [hP]
      dsimp only
      omega
    · rw [he1, he2]
      simp only [syncSalesAux]
      rw [hP]
  · intro fs payment rest e h
    obtain ⟨hr1, he1⟩ := sync_to_invoice_unfold fs [] (payment :: rest)
    obtain ⟨hr2, he2⟩ :=
      sync_to_invoice_unfold (append_invoice_payment fs payment).1 [] rest
    have hP : syncPaymentsAux fs [] 0 (payment :: rest) =
        ((syncPaymentsAux (append_invoice_payment fs payment).1 [] 0 rest).1,
         s!"Payment error: {e}" ::
           (syncPaymentsAux (append_invoice_payment fs payment).1 [] 0 rest).2.1,
         (syncPaymentsAux (append_invoice_payment fs payment).1 [] 0 rest).2.2) := by
      simp only [syncPaymentsAux, h]
      rw [syncPaymentsAux_acc rest]
      simp
    constructor
    · rw [hr1, hr2]
      simp only [syncSalesAux]
      rw [hP]
    · rw [he1, he2]
      simp only [syncSalesAux]
      rw [hP]
      dsimp only
      simp

/-- A filesystem holding an empty new-format invoice workbook. -/
def invoiceFS : FS := ⟨[(INVOICE_SALES_SHEET, emptySheet),
  (INVOICE_PAYMENTS_SHEET, emptySheet)], []⟩

/-- A sale dict with every field absent. -/
def emptySaleDict : SaleDict :=
  ⟨Option.none, Option.none, Option.none, Option.none, Option.none,
   Option.none, Option.none, Option.none, Option.none⟩

/-- A payment dict with every field absent. -/
def emptyPaymentDict : PaymentDict :=
  ⟨Option.none, Option.none, Option.none, Option.none⟩

/-- Concrete instantiations of every hypothesis-bearing part of C10: a
successful day (empty sales list on an existing sheet) counts its length
and adds no error; a failing day (missing sheet) adds one error and
counts nothing; one successful and one failing invoice sale, each with a
non-empty trailing payment list; and one successful and one failing
invoice payment. -/
theorem sync_result_invariants_witness :
    ((sync_to_inventory testInvFS 1 [(5, [])]).2.records_processed =
        ([] : List SaleEntry).length +
          (sync_to_inventory (write_daily_sales testInvFS 1 5 []).1
          1 []).2.records_processed ∧
      (sync_to_inventory testInvFS 1 [(5, [])]).2.errors =
        (sync_to_inventory (write_daily_sales testInvFS 1 5 []).1 1 []).2.errors) ∧
    ((sync_to_inventory emptyFS 1 [(5, [])]).2.records_processed =
        (sync_to_inventory (write_daily_sales emptyFS 1 5 []).1
          1 []).2.records_processed ∧
      (sync_to_inventory emptyFS 1 [(5, [])]).2.errors =
        s!"Day {5}: {keyErrorMsg (get_sheet_name 1)}" ::
          (sync_to_inventory (write_daily_sales emptyFS 1 5 []).1 1 []).2.errors) ∧
    ((sync_to_invoice invoiceFS [emptySaleDict]
        [emptyPaymentDict]).2.records_processed =
        1 + (sync_to_invoice (append_invoice_sale invoiceFS emptySaleDict).1
          [] [emptyPaymentDict]).2.records_processed ∧
      (sync_to_invoice invoiceFS [emptySaleDict] [emptyPaymentDict]).2.errors =
        (sync_to_invoice (append_invoice_sale invoiceFS emptySaleDict).1
          [] [emptyPaymentDict]).2.errors) ∧
    ((sync_to_invoice emptyFS [emptySaleDict]
        [emptyPaymentDict]).2.records_processed =
        (sync_to_invoice (append_invoice_sale emptyFS emptySaleDict).1
          [] [emptyPaymentDict]).2.records_processed ∧
      (sync_to_invoice emptyFS [emptySaleDict] [emptyPaymentDict]).2.errors =
        s!"Sale error: {keyErrorMsg INVOICE_SALES_SHEET}" ::
          (sync_to_invoice (append_invoice_sale emptyFS emptySaleDict).1
            [] [emptyPaymentDict]).2.errors) ∧
    ((sync_to_invoice invoiceFS [] [emptyPaymentDict]).2.records_processed =
        1 + (sync_to_invoice (append_invoice_payment invoiceFS emptyPaymentDict).1
          [] []).2.records_processed ∧
      (sync_to_invoice invoiceFS [] [emptyPaymentDict]).2.errors =
        (sync_to_invoice (append_invoice_payment invoiceFS emptyPaymentDict).1
          [] []).2.errors) ∧
    ((sync_to_invoice emptyFS [] [emptyPaymentDict]).2.records_processed =
        (sync_to_invoice (append_invoice_payment emptyFS emptyPaymentDict).1
          [] []).2.records_processed ∧
      (sync_to_invoice emptyFS [] [emptyPaymentDict]).2.errors =
        s!"Payment error: {keyErrorMsg INVOICE_PAYMENTS_SHEET}" ::
          (sync_to_invoice (append_invoice_payment emptyFS emptyPaymentDict).1
            [] []).2.errors) :=
  ⟨sync_result_invariants.2.2.2.1 testInvFS 1 5 [] [] (by rfl),
   sync_result_invariants.2.2.2.2.1 emptyFS 1 5 [] []
     (keyErrorMsg (get_sheet_name 1)) (by rfl),
   sync_result_invariants.2.2.2.2.2.2.1 invoiceFS emptySaleDict []
     [emptyPaymentDict] (by rfl),
   sync_result_invariants.2.2.2.2.2.2.2.1 emptyFS emptySaleDict []
     [emptyPaymentDict] (keyErrorMsg INVOICE_SALES_SHEET) (by rfl),
   sync_result_invariants.2.2.2.2.2.2.2.2.1 invoiceFS emptyPaymentDict []
     (by rfl),
   sync_result_invariants.2.2.2.2.2.2.2.2.2 emptyFS emptyPaymentDict []
     (keyErrorMsg INVOICE_PAYMENTS_SHEET) (by rfl)⟩

/-! ## C4 infrastructure: the export/import round trip -/

/-- Cell lookup after a single write. -/
theorem Sheet.cell_set (ws : Sheet) (r c : ℕ) (v : CellValue) (r' c' : ℕ) :
    (ws.set r c v).cell r' c' = if (r', c') = (r, c) then v else ws.cell r' c' :=
  rfl

/-- `_safe_write` succeeds exactly as a plain write outside the formula
columns. -/
theorem safe_write_ok {c : ℕ} (h : c ∉ FORMULA_COLUMNS) (ws : Sheet)
    (r : ℕ) (v : CellValue) : safe_write ws r c v = .ok (ws.set r c v) := by
  unfold safe_write
  rw [if_neg h]

/-- The pure effect of one stock entry of `export_inventory_batch`. -/
def stockStep (L : SheetLayout) (w : Sheet) (e : StockEntry) : Sheet :=
  let w1 := if e.initial_stock ≠ 0 then
      w.set e.row L.initial_stock_col (.num (e.initial_stock : ℚ)) else w
  if e.added_stock ≠ 0 then
    w1.set e.row L.added_stock_col (.num (e.added_stock : ℚ)) else w1

/-- The pure effect of the stock loop. -/
def stockPure (L : SheetLayout) (stock : List StockEntry) (ws : Sheet) : Sheet :=
  stock.foldl (stockStep L) ws

/-- The pure effect of one daily-sales write. -/
def dayStep (L : SheetLayout) (d : ℕ) (w : Sheet) (s : SaleEntry) : Sheet :=
  w.set s.row (L.dayCol d) (qtyCell s.qty)

/-- The pure effect of one day of the daily loop. -/
def dayRowsPure (L : SheetLayout) (d : ℕ) (es : List SaleEntry) (w : Sheet) :
    Sheet :=
  es.foldl (dayStep L d) w

/-- The pure effect of the whole daily loop. -/
def dailyPure (L : SheetLayout) (l : List (ℕ × List SaleEntry)) (w : Sheet) :
    Sheet :=
  l.foldl (fun w p => dayRowsPure L p.1 p.2 w) w

/-- An `Except`-valued fold whose every step succeeds is the
corresponding pure fold. -/
theorem foldlM_ok_of_step {α β : Type} (f : β → α → Except String β)
    (g : β → α → β) (hf : ∀ b a, f b a = .ok (g b a)) :
    ∀ (l : List α) (b : β), l.foldlM f b = .ok (l.foldl g b)
  | [], b => rfl
  | a :: l, b => by
      rw [List.foldlM_cons, hf b a]
      show l.foldlM f (g b a) = _
      rw [foldlM_ok_of_step f g hf l (g b a), List.foldl_cons]

/-- The stock loop of the export never raises (its two columns are not
formula columns) and acts as `stockPure`. -/
theorem writeStockFold_ok {L : SheetLayout}
    (hi : L.initial_stock_col ∉ FORMULA_COLUMNS)
    (ha : L.added_stock_col ∉ FORMULA_COLUMNS)
    (stock : List StockEntry) (ws : Sheet) :
    writeStockFold L stock ws = .ok (stockPure L stock ws) := by
  unfold writeStockFold stockPure
  refine foldlM_ok_of_step _ _ ?_ stock ws
  intro w e
  unfold stockStep
  by_cases h1 : e.initial_stock ≠ 0 <;> by_cases h2 : e.added_stock ≠ 0
  · simp only [if_pos h1, if_pos h2, safe_write_ok hi, safe_write_ok ha]
    rfl
  · simp only [if_pos h1, if_neg h2, safe_write_ok hi]
    rfl
  · simp only [if_neg h1, if_pos h2, safe_write_ok ha]
    rfl
  · simp only [if_neg h1, if_neg h2]
    rfl

/-- The first component of a counting fold is the plain sheet fold. -/
theorem foldl_count_fst {α : Type} (g : Sheet → α → Sheet) :
    ∀ (l : List α) (w : Sheet) (n : ℕ),
      (l.foldl (fun (q : Sheet × ℕ) a => (g q.1 a, q.2 + 1)) (w, n)).1 =
        l.foldl g w
  | [], w, n => rfl
  | a :: l, w, n => foldl_count_fst g l (g w a) (n + 1)

/-- `day_to_col` succeeds on days 1..31. -/
theorem day_to_col_ok {L : SheetLayout} {d : ℕ} (h1 : 1 ≤ d) (h2 : d ≤ 31) :
    L.day_to_col d = .ok (L.dayCol d) := by
  unfold SheetLayout.day_to_col SheetLayout.dayCol
  rw [if_pos ⟨h1, h2⟩]

/-- The daily-sales loop of the export never raises when every day is in
1..31 and the day columns avoid the formula columns; the sheet it writes
is `dailyPure`. -/
theorem writeDailyFold_ok {L : SheetLayout}
    (hcols : ∀ d, 1 ≤ d → d ≤ 31 → L.dayCol d ∉ FORMULA_COLUMNS) :
    ∀ (l : List (ℕ × List SaleEntry)), (∀ p ∈ l, 1 ≤ p.1 ∧ p.1 ≤ 31) →
      ∀ (acc : Sheet × ℕ), ∃ n : ℕ,
        writeDailyFold L l acc = .ok (dailyPure L l acc.1, n)
  | [], _, acc => ⟨acc.2, rfl⟩
  | (d, es) :: rest, hdays, acc => by
      have hd := hdays (d, es) (by simp)
      have hcol : L.dayCol d ∉ FORMULA_COLUMNS := hcols d hd.1 hd.2
      have hinner : es.foldlM (fun (q : Sheet × ℕ) s => do
          let w ← safe_write q.1 s.row (L.dayCol d) (qtyCell s.qty)
          pure (w, q.2 + 1)) acc =
          .ok (es.foldl (fun (q : Sheet × ℕ) s =>
            (dayStep L d q.1 s, q.2 + 1)) acc) := by
        refine foldlM_ok_of_step _ _ ?_ es acc
        intro q s
        simp only [safe_write_ok hcol, dayStep]
        rfl
      have hrest := writeDailyFold_ok hcols rest
        (fun p hp => hdays p (List.mem_cons_of_mem _ hp))
        (es.foldl (fun (q : Sheet × ℕ) s => (dayStep L d q.1 s, q.2 + 1)) acc)
      obtain ⟨n, hn⟩ := hrest
      refine ⟨n, ?_⟩
      unfold writeDailyFold at hn ⊢
      rw [List.foldlM_cons]
      rw [show ((do
          let col ← L.day_to_col d
          es.foldlM (fun (q : Sheet × ℕ) s => do
            let w ← safe_write q.1 s.row col (qtyCell s.qty)
            pure (w, q.2 + 1)) acc) : Except String (Sheet × ℕ)) =
          .ok (es.foldl (fun (q : Sheet × ℕ) s =>
            (dayStep L d q.1 s, q.2 + 1)) acc) from by
        rw [day_to_col_ok hd.1 hd.2]
        show es.foldlM _ acc = _
        exact hinner]
      show List.foldlM _ _ rest = _
      rw [hn]
      have hfst : (es.foldl (fun (q : Sheet × ℕ) s =>
          (dayStep L d q.1 s, q.2 + 1)) acc).1 = dayRowsPure L d es acc.1 := by
        unfold dayRowsPure
        exact foldl_count_fst (dayStep L d) es acc.1 acc.2
      rw [hfst]
      rfl

/-- Cell contents after clearing a list of columns of one row. -/
theorem foldl_set_none_cell (r : ℕ) :
    ∀ (cols : List ℕ) (ws : Sheet) (r' c' : ℕ),
      (cols.foldl (fun w c => w.set r c CellValue.none) ws).cell r' c' =
        if r' = r ∧ c' ∈ cols then CellValue.none else ws.cell r' c'
  | [], ws, r', c' => by simp
  | c :: cols, ws, r', c' => by
      rw [List.foldl_cons,
        foldl_set_none_cell r cols (ws.set r c .none) r' c', Sheet.cell_set]
      by_cases hr : r' = r
      · subst hr
        by_cases hc : c' ∈ cols
        · rw [if_pos ⟨rfl, hc⟩, if_pos ⟨rfl, List.mem_cons_of_mem c hc⟩]
        · rw [if_neg (fun h => hc h.2)]
          by_cases hcc : c' = c
          · subst hcc
            rw [if_pos rfl, if_pos ⟨rfl, List.mem_cons_self _ _⟩]
          · rw [if_neg (by simp [Prod.ext_iff, hcc]),
              if_neg (by simp [List.mem_cons, hcc, hc])]
      · rw [if_neg (fun h => hr h.1), if_neg (by simp [Prod.ext_iff, hr]),
          if_neg (fun h => hr h.1)]

/-- Generic row-clearing fold: rows in the list get their marked columns
emptied, everything else is untouched. -/
theorem foldl_clear_rows_cell {P : ℕ → Prop} [DecidablePred P]
    (step : Sheet → ℕ → Sheet)
    (hstep : ∀ (ws : Sheet) (r r' c' : ℕ), (step ws r).cell r' c' =
      if r' = r ∧ P c' then CellValue.none else ws.cell r' c') :
    ∀ (rows : List ℕ) (ws : Sheet) (r' c' : ℕ),
      (rows.foldl step ws).cell r' c' =
        if r' ∈ rows ∧ P c' then CellValue.none else ws.cell r' c'
  | [], ws, r', c' => by simp
  | r :: rows, ws, r', c' => by
      rw [List.foldl_cons, foldl_clear_rows_cell step hstep rows _ r' c',
        hstep]
      by_cases hP : P c'
      · by_cases hrows : r' ∈ rows
        · rw [if_pos ⟨hrows, hP⟩, if_pos ⟨List.mem_cons_of_mem r hrows, hP⟩]
        · rw [if_neg (fun h => hrows h.1)]
          by_cases hr : r' = r
          · rw [if_pos ⟨hr, hP⟩, if_pos ⟨by simp [hr], hP⟩]
          · rw [if_neg (fun h => hr h.1),
              if_neg (by simp [List.mem_cons, hr, hrows])]
      · rw [if_neg (fun h => hP h.2), if_neg (fun h => hP h.2),
          if_neg (fun h => hP h.2)]

/-- The columns a clearing pass empties. -/
def clearedCol (L : SheetLayout) (c : ℕ) : Prop :=
  c = L.initial_stock_col ∨ c = L.added_stock_col ∨ c ∈ L.dailyCols

instance (L : SheetLayout) (c : ℕ) : Decidable (clearedCol L c) := by
  unfold clearedCol
  infer_instance

/-- Cell contents after the per-row clearing step of the export. -/
theorem clearStockRowExport_cell (L : SheetLayout) (ws : Sheet)
    (r r' c' : ℕ) :
    (clearStockRowExport L ws r).cell r' c' =
      if r' = r ∧ clearedCol L c' then CellValue.none else ws.cell r' c' := by
  unfold clearStockRowExport
  rw [foldl_set_none_cell r _ _ r' c', Sheet.cell_set, Sheet.cell_set]
  by_cases hr : r' = r
  · subst hr
    by_cases hd : c' ∈ L.dailyCols
    · rw [if_pos ⟨rfl, hd⟩, if_pos ⟨rfl, Or.inr (Or.inr hd)⟩]
    · rw [if_neg (fun h => hd h.2)]
      by_cases ha : c' = L.added_stock_col
      · rw [if_pos (by simp [Prod.ext_iff, ha]),
          if_pos ⟨rfl, Or.inr (Or.inl ha)⟩]
      · rw [if_neg (by simp [Prod.ext_iff, ha])]
        by_cases hi : c' = L.initial_stock_col
        · rw [if_pos (by simp [Prod.ext_iff, hi]),
            if_pos ⟨rfl, Or.inl hi⟩]
        · rw [if_neg (by simp [Prod.ext_iff, hi]),
            if_neg (by simp [clearedCol, hi, ha, hd])]
  · rw [if_neg (fun h => hr h.1), if_neg (by simp [Prod.ext_iff, hr]),
      if_neg (by simp [Prod.ext_iff, hr]), if_neg (fun h => hr h.1)]

/-- Cell contents after the export's clearing pass over rows 2..51. -/
theorem clearRegionExport_cell (L : SheetLayout) (ws : Sheet) (r' c' : ℕ) :
    (clearRegionExport L ws).cell r' c' =
      if r' ∈ dataRows ∧ clearedCol L c' then CellValue.none
      else ws.cell r' c' := by
  unfold clearRegionExport
  exact foldl_clear_rows_cell (clearStockRowExport L)
    (fun ws r r' c' => clearStockRowExport_cell L ws r r' c') dataRows ws r' c'

/-- A stock step does not touch other rows. -/
theorem stockStep_cell_other {L : SheetLayout} {w : Sheet} {e : StockEntry}
    {r c : ℕ} (h : e.row ≠ r) : (stockStep L w e).cell r c = w.cell r c := by
  unfold stockStep
  split_ifs <;>
    simp [Sheet.cell_set, Prod.ext_iff, Ne.symm h]

/-- The whole stock loop does not touch rows outside its entries. -/
theorem stockPure_cell_other {L : SheetLayout} {r c : ℕ} :
    ∀ {stock : List StockEntry}, (∀ e ∈ stock, e.row ≠ r) →
      ∀ w : Sheet, (stockPure L stock w).cell r c = w.cell r c
  | [], _, w => rfl
  | e :: rest, h, w => by
      rw [stockPure, List.foldl_cons]
      have := @stockPure_cell_other L r c rest
        (fun x hx => h x (List.mem_cons_of_mem e hx))
        (stockStep L w e)
      rw [stockPure] at this
      rw [this, stockStep_cell_other (h e (by simp))]

/-- A stock step writes the initial-stock cell of its row. -/
theorem stockStep_cell_init {L : SheetLayout} {w : Sheet} {e : StockEntry}
    (hne : L.initial_stock_col ≠ L.added_stock_col) :
    (stockStep L w e).cell e.row L.initial_stock_col =
      if e.initial_stock ≠ 0 then CellValue.num (e.initial_stock : ℚ)
      else w.cell e.row L.initial_stock_col := by
  unfold stockStep
  by_cases h2 : e.added_stock ≠ 0 <;> by_cases h1 : e.initial_stock ≠ 0 <;>
    simp [h1, h2, Sheet.cell_set, Prod.ext_iff, hne, Ne.symm hne]

/-- A stock step writes the added-stock cell of its row. -/
theorem stockStep_cell_added {L : SheetLayout} {w : Sheet} {e : StockEntry}
    (hne : L.initial_stock_col ≠ L.added_stock_col) :
    (stockStep L w e).cell e.row L.added_stock_col =
      if e.added_stock ≠ 0 then CellValue.num (e.added_stock : ℚ)
      else w.cell e.row L.added_stock_col := by
  unfold stockStep
  by_cases h2 : e.added_stock ≠ 0 <;> by_cases h1 : e.initial_stock ≠ 0 <;>
    simp [h1, h2, Sheet.cell_set, Prod.ext_iff, hne, Ne.symm hne]

/-- A daily write does not touch other cells. -/
theorem dayStep_cell_other {L : SheetLayout} {d : ℕ} {w : Sheet}
    {s : SaleEntry} {r c : ℕ} (h : (s.row, L.dayCol d) ≠ (r, c)) :
    (dayStep L d w s).cell r c = w.cell r c := by
  unfold dayStep
  rw [Sheet.cell_set, if_neg (fun h' => h (by simpa [Prod.ext_iff, and_comm, eq_comm] using h'))]

/-- One day's loop does not touch cells outside its writes. -/
theorem dayRowsPure_cell_other {L : SheetLayout} {d : ℕ} {r c : ℕ} :
    ∀ {es : List SaleEntry}, (∀ s ∈ es, (s.row, L.dayCol d) ≠ (r, c)) →
      ∀ w : Sheet, (dayRowsPure L d es w).cell r c = w.cell r c
  | [], _, w => rfl
  | s :: rest, h, w => by
      rw [dayRowsPure, List.foldl_cons]
      have := @dayRowsPure_cell_other L d r c rest
        (fun x hx => h x (List.mem_cons_of_mem s hx))
        (dayStep L d w s)
      rw [dayRowsPure] at this
      rw [this, dayStep_cell_other (h s (by simp))]

/-- The whole daily loop does not touch cells outside its writes. -/
theorem dailyPure_cell_other {L : SheetLayout} {r c : ℕ} :
    ∀ {l : List (ℕ × List SaleEntry)},
      (∀ p ∈ l, ∀ s ∈ p.2, (s.row, L.dayCol p.1) ≠ (r, c)) →
      ∀ w : Sheet, (dailyPure L l w).cell r c = w.cell r c
  | [], _, w => rfl
  | p :: rest, h, w => by
      rw [dailyPure, List.foldl_cons]
      have := dailyPure_cell_other (L := L) (r := r) (c := c)
        (l := rest) (fun x hx s hs => h x (List.mem_cons_of_mem p hx) s hs)
        (dayRowsPure L p.1 p.2 w)
      rw [dailyPure] at this
      rw [this, dayRowsPure_cell_other (fun s hs => h p (by simp) s hs)]

/-- Arithmetic facts about both layouts' columns. -/
theorem layout_facts (month : ℕ) :
    (get_layout month).initial_stock_col ≠ (get_layout month).added_stock_col ∧
    13 ≤ (get_layout month).initial_stock_col ∧
    13 ≤ (get_layout month).added_stock_col ∧
    (get_layout month).initial_stock_col < (get_layout month).daily_start_col ∧
    (get_layout month).added_stock_col < (get_layout month).daily_start_col ∧
    15 ≤ (get_layout month).daily_start_col ∧
    (get_layout month).daily_end_col = (get_layout month).daily_start_col + 30 := by
  unfold get_layout
  split <;>
    exact ⟨by decide, by decide, by decide, by decide, by decide, by decide,
      by decide⟩

/-- Columns at index 13 or above are never formula columns. -/
theorem not_formula_of_13 {c : ℕ} (h : 13 ≤ c) : c ∉ FORMULA_COLUMNS := by
  intro hm
  rw [mem_formula_columns_iff] at hm
  omega

/-- The day column of a valid day, under the layout facts. -/
theorem dayCol_ge {L : SheetLayout} {d : ℕ} (h1 : 1 ≤ d) :
    L.daily_start_col ≤ L.dayCol d := by
  unfold SheetLayout.dayCol
  omega

/-- `dayCol` is injective on positive days. -/
theorem dayCol_inj {L : SheetLayout} {d d' : ℕ} (h1 : 1 ≤ d) (h1' : 1 ≤ d')
    (h : L.dayCol d = L.dayCol d') : d = d' := by
  unfold SheetLayout.dayCol at h
  omega

/-- Valid days land inside the daily column block. -/
theorem dayCol_mem_dailyCols {L : SheetLayout} {d : ℕ} (h1 : 1 ≤ d)
    (h2 : d ≤ 31) (hend : L.daily_end_col = L.daily_start_col + 30) :
    L.dayCol d ∈ L.dailyCols := by
  unfold SheetLayout.dailyCols SheetLayout.dayCol
  rw [List.mem_range'_1]
  omega

/-- A stock step does not touch other columns. -/
theorem stockStep_cell_othercol {L : SheetLayout} {w : Sheet} {e : StockEntry}
    {r c : ℕ} (h1 : c ≠ L.initial_stock_col) (h2 : c ≠ L.added_stock_col) :
    (stockStep L w e).cell r c = w.cell r c := by
  unfold stockStep
  split_ifs <;> simp [Sheet.cell_set, Prod.ext_iff, h1, h2]

/-- The stock loop does not touch other columns. -/
theorem stockPure_cell_othercol {L : SheetLayout} {r c : ℕ}
    (h1 : c ≠ L.initial_stock_col) (h2 : c ≠ L.added_stock_col) :
    ∀ (stock : List StockEntry) (w : Sheet),
      (stockPure L stock w).cell r c = w.cell r c
  | [], w => rfl
  | e :: rest, w => by
      rw [stockPure, List.foldl_cons]
      have := stockPure_cell_othercol (L := L) (r := r) (c := c) h1 h2 rest
        (stockStep L w e)
      rw [stockPure] at this
      rw [this, stockStep_cell_othercol h1 h2]

/-- The stock loop's effect on the row of one of its entries, given
distinct rows: the cell is whatever the entry's own step wrote. -/
theorem stockPure_cell_entry {L : SheetLayout} {stock : List StockEntry}
    {e : StockEntry} (he : e ∈ stock)
    (hnd : (stock.map (fun x => x.row)).Nodup) (w : Sheet) (c : ℕ) :
    ∃ w' : Sheet,
      (stockPure L stock w).cell e.row c = (stockStep L w' e).cell e.row c := by
  obtain ⟨pre, post, rfl⟩ := List.append_of_mem he
  have hpost : ∀ x ∈ post, x.row ≠ e.row := by
    intro x hx heq
    rw [List.map_append, List.map_cons, List.nodup_append] at hnd
    have h2 := hnd.2.1
    rw [List.nodup_cons] at h2
    exact h2.1 (heq ▸ List.mem_map_of_mem (fun x => x.row) hx)
  refine ⟨stockPure L pre w, ?_⟩
  rw [stockPure, List.foldl_append, List.foldl_cons]
  have := @stockPure_cell_other L e.row c post hpost
    (stockStep L (stockPure L pre w) e)
  rw [stockPure] at this
  exact this

/-- Elements of a key-Nodup association list are determined by their
key. -/
theorem eq_of_key_nodup {α : Type} :
    ∀ {l : List (ℕ × α)}, (l.map (fun p => p.1)).Nodup →
      ∀ {p q : ℕ × α}, p ∈ l → q ∈ l → p.1 = q.1 → p = q
  | [], _, p, q, hp, _, _ => absurd hp (by simp)
  | a :: rest, hnd, p, q, hp, hq, hk => by
      rw [List.map_cons, List.nodup_cons] at hnd
      rw [List.mem_cons] at hp hq
      rcases hp with rfl | hp <;> rcases hq with rfl | hq
      · rfl
      · exact absurd (hk ▸ List.mem_map_of_mem (fun p => p.1) hq) hnd.1
      · exact absurd (hk ▸ List.mem_map_of_mem (fun p => p.1) hp) hnd.1
      · exact eq_of_key_nodup hnd.2 hp hq hk

/-- `dailyPure` splits over list append. -/
theorem dailyPure_append (L : SheetLayout) (l1 l2 : List (ℕ × List SaleEntry))
    (w : Sheet) :
    dailyPure L (l1 ++ l2) w = dailyPure L l2 (dailyPure L l1 w) := by
  unfold dailyPure
  rw [List.foldl_append]

/-- `dailyPure` steps over cons. -/
theorem dailyPure_cons (L : SheetLayout) (p : ℕ × List SaleEntry)
    (l : List (ℕ × List SaleEntry)) (w : Sheet) :
    dailyPure L (p :: l) w = dailyPure L l (dayRowsPure L p.1 p.2 w) := by
  unfold dailyPure
  rw [List.foldl_cons]

/-- `dayRowsPure` splits over list append. -/
theorem dayRowsPure_append (L : SheetLayout) (d : ℕ)
    (es1 es2 : List SaleEntry) (w : Sheet) :
    dayRowsPure L d (es1 ++ es2) w = dayRowsPure L d es2 (dayRowsPure L d es1 w) := by
  unfold dayRowsPure
  rw [List.foldl_append]

/-- `dayRowsPure` steps over cons. -/
theorem dayRowsPure_cons (L : SheetLayout) (d : ℕ) (s : SaleEntry)
    (es : List SaleEntry) (w : Sheet) :
    dayRowsPure L d (s :: es) w = dayRowsPure L d es (dayStep L d w s) := by
  unfold dayRowsPure
  rw [List.foldl_cons]

/-- The daily loop writes a present entry's quantity cell. -/
theorem dailyPure_cell_hit {L : SheetLayout} {l : List (ℕ × List SaleEntry)}
    {d : ℕ} {es : List SaleEntry} {s : SaleEntry}
    (hmem : (d, es) ∈ l) (hs : s ∈ es)
    (hday_nd : (l.map (fun p => p.1)).Nodup)
    (hrow_nd : (es.map (fun x => x.row)).Nodup)
    (hd1 : 1 ≤ d) (hdays : ∀ p ∈ l, 1 ≤ p.1)
    (w : Sheet) :
    (dailyPure L l w).cell s.row (L.dayCol d) = qtyCell s.qty := by
  obtain ⟨pre, post, rfl⟩ := List.append_of_mem hmem
  have hpost : ∀ p ∈ post, ∀ x ∈ p.2, (x.row, L.dayCol p.1) ≠ (s.row, L.dayCol d) := by
    intro p hp x hx hpair
    have hkey : p.1 ≠ d := by
      intro heq
      rw [List.map_append, List.map_cons, List.nodup_append] at hday_nd
      have h2 := hday_nd.2.1
      rw [List.nodup_cons] at h2
      exact h2.1 (heq ▸ List.mem_map_of_mem (fun p => p.1) hp)
    have hcols : L.dayCol p.1 = L.dayCol d := congrArg Prod.snd hpair
    exact hkey (dayCol_inj (hdays p (by simp [hp])) hd1 hcols)
  rw [dailyPure_append, dailyPure_cons]
  dsimp only
  rw [dailyPure_cell_other hpost]
  obtain ⟨pre2, post2, rfl⟩ := List.append_of_mem hs
  have hpost2 : ∀ x ∈ post2, (x.row, L.dayCol d) ≠ (s.row, L.dayCol d) := by
    intro x hx hpair
    rw [List.map_append, List.map_cons, List.nodup_append] at hrow_nd
    have h2 := hrow_nd.2.1
    rw [List.nodup_cons] at h2
    have : x.row = s.row := congrArg Prod.fst hpair
    exact h2.1 (this ▸ List.mem_map_of_mem (fun x => x.row) hx)
  rw [dayRowsPure_append, dayRowsPure_cons]
  rw [dayRowsPure_cell_other hpost2]
  unfold dayStep
  rw [Sheet.cell_set, if_pos rfl]

/-- Integer truncation is the identity on integer casts. -/
theorem ratTrunc_intCast (n : ℤ) : ratTrunc ((n : ℚ)) = n := by
  unfold ratTrunc
  split_ifs
  · rw [show (-(n : ℚ)) = ((-n : ℤ) : ℚ) by push_cast; ring,
      Int.floor_intCast, neg_neg]
  · exact Int.floor_intCast n

/-- `_to_int` reads back an integer written as a number cell. -/
theorem toInt_num_int (n : ℤ) : toInt (.num (n : ℚ)) 0 = n := by
  have h : toInt (.num ((n : ℚ))) 0 = ratTrunc ((n : ℚ)) := rfl
  rw [h, ratTrunc_intCast]

/-- After replacing a sheet, looking it up yields the replacement. -/
theorem get?_setSheet :
    ∀ {wb : Workbook} {name : String} {w : Sheet},
      wb.get? name = some w → ∀ ws' : Sheet,
        (wb.setSheet name ws').get? name = some ws'
  | [], name, w, h => by cases h
  | p :: rest, name, w, h => by
      intro ws'
      by_cases hp : p.1 = name
      · simp [Workbook.setSheet, Workbook.get?, hp]
      · have hh : Workbook.get? rest name = some w := by
          simpa [Workbook.get?, hp] using h
        have := get?_setSheet hh ws'
        simpa [Workbook.setSheet, Workbook.get?, hp] using this

/-- Lookup of a day in the reader's sparse day→qty map. -/
def dayLookup (l : List (ℕ × ℤ)) (d : ℕ) : Option ℤ :=
  (l.find? (fun p => p.1 = d)).map (fun p => p.2)

/-- Lookup of (row, day) in the exported dataset. -/
def dayQty (salesByDay : List (ℕ × List SaleEntry)) (r d : ℕ) : Option ℤ :=
  match salesByDay.find? (fun p => p.1 = d) with
  | some p => (p.2.find? (fun s => s.row = r)).map (fun s => s.qty)
  | Option.none => Option.none

/-- `find?` on a `filterMap` whose outputs are keyed by their inputs. -/
theorem find?_filterMap_keyed (f : ℕ → Option (ℕ × ℤ))
    (hkey : ∀ d p, f d = some p → p.1 = d) :
    ∀ (ds : List ℕ) (d₀ : ℕ),
      (ds.filterMap f).find? (fun p => p.1 = d₀) =
        if d₀ ∈ ds then f d₀ else Option.none
  | [], d₀ => by simp
  | a :: rest, d₀ => by
      rw [List.filterMap_cons]
      rcases hfa : f a with _ | p
      · rw [find?_filterMap_keyed f hkey rest d₀]
        by_cases had : d₀ = a
        · subst had
          by_cases hr : d₀ ∈ rest
          · rw [if_pos hr, if_pos (by simp)]
          · rw [if_neg hr, if_pos (by simp), hfa]
        · simp [List.mem_cons, had]
      · have hp1 : p.1 = a := hkey a p hfa
        rw [List.find?_cons]
        by_cases had : a = d₀
        · subst had
          rw [if_pos (by simp), hfa,
            show decide (p.1 = a) = true by simp [hp1]]
        · rw [show decide (p.1 = d₀) = false by simp [hp1, had]]
          show (List.filterMap f rest).find? (fun p => decide (p.1 = d₀)) =
            if d₀ ∈ a :: rest then f d₀ else Option.none
          rw [find?_filterMap_keyed f hkey rest d₀]
          have hda : ¬d₀ = a := fun h => had h.symm
          simp [List.mem_cons, hda]

/-- The reader's daily map, looked up at a day. -/
theorem dayLookup_readDailySales (L : SheetLayout) (ws : Sheet) (r d₀ : ℕ) :
    dayLookup (readDailySales L ws r) d₀ =
      if 1 ≤ d₀ ∧ d₀ ≤ 31 then
        (if 0 < toInt (ws.cell r (L.dayCol d₀)) 0 then
          some (toInt (ws.cell r (L.dayCol d₀)) 0) else Option.none)
      else Option.none := by
  unfold dayLookup readDailySales
  rw [find?_filterMap_keyed _ ?hkey (List.range' 1 31) d₀]
  case hkey =>
    intro d p h
    dsimp only at h
    split at h
    · injection h with h'
      rw [← h']
    · cases h
  by_cases hr : 1 ≤ d₀ ∧ d₀ ≤ 31
  · rw [if_pos (show d₀ ∈ List.range' 1 31 by rw [List.mem_range'_1]; omega),
      if_pos hr]
    dsimp only
    split_ifs with hq
    · rfl
    · rfl
  · rw [if_neg (show d₀ ∉ List.range' 1 31 by rw [List.mem_range'_1]; omega),
      if_neg hr]
    rfl

/-- **C4.** Round-trip: exporting a stock+daily-sales dataset (rows in
2..51 with distinct rows, days in 1..31 with distinct days and distinct
rows per day, positive integer stock values and quantities) to a
well-formed inventory file — one whose target month sheet exists and
whose dataset rows carry a non-empty, non-summary size label — and then
importing the same file for the same period yields, for every dataset
row, `initial_stock`, `added_stock` and a day→quantity map equal to the
exported dataset. -/
theorem export_import_roundtrip
    (fs : FS) (month : ℕ) (ws0 : Sheet)
    (stock : List StockEntry) (salesByDay : List (ℕ × List SaleEntry))
    (hsheet : fs.main.get? (get_sheet_name month) = some ws0)
    (hstock_rows : ∀ e ∈ stock, 2 ≤ e.row ∧ e.row ≤ 51)
    (hstock_nodup : (stock.map (fun e => e.row)).Nodup)
    (hstock_pos : ∀ e ∈ stock, 0 < e.initial_stock ∧ 0 < e.added_stock)
    (hdays : ∀ p ∈ salesByDay, 1 ≤ p.1 ∧ p.1 ≤ 31)
    (hdays_nodup : (salesByDay.map (fun p => p.1)).Nodup)
    (hsale_rows : ∀ p ∈ salesByDay, ∀ s ∈ p.2, 2 ≤ s.row ∧ s.row ≤ 51)
    (hsale_nodup : ∀ p ∈ salesByDay, (p.2.map (fun s => s.row)).Nodup)
    (hsale_pos : ∀ p ∈ salesByDay, ∀ s ∈ p.2, 0 < s.qty)
    (hid : ∀ e ∈ stock, ∃ idstr t : String,
      ws0.cell e.row INV_SIZE_COL = .str idstr ∧
      toStr (.str idstr) = some t ∧
      pyLower t ≠ "total" ∧ pyLower t ≠ "total tyre available") :
    ∃ (n : ℕ) (recs : List TyreRow),
      (export_inventory_batch fs month stock salesByDay).2 = .ok n ∧
      read_inventory (export_inventory_batch fs month stock salesByDay).1.main
        month = .ok recs ∧
      ∀ e ∈ stock, ∃ rec ∈ recs,
        rec.row = e.row ∧
        rec.initial_stock = e.initial_stock ∧
        rec.added_stock = e.added_stock ∧
        ∀ d : ℕ, dayLookup rec.daily_sales d = dayQty salesByDay e.row d := by
  obtain ⟨hne, hi13, ha13, hilt, halt, hs15, hend⟩ := layout_facts month
  have hiF : (get_layout month).initial_stock_col ∉ FORMULA_COLUMNS :=
    not_formula_of_13 hi13
  have haF : (get_layout month).added_stock_col ∉ FORMULA_COLUMNS :=
    not_formula_of_13 ha13
  have hdayF : ∀ d, 1 ≤ d → d ≤ 31 →
      (get_layout month).dayCol d ∉ FORMULA_COLUMNS := by
    intro d h1 h2
    have hge := dayCol_ge (L := get_layout month) h1
    exact not_formula_of_13 (by omega)
  obtain ⟨n, hdaily⟩ := writeDailyFold_ok hdayF salesByDay hdays
    (stockPure (get_layout month) stock (clearRegionExport (get_layout month) ws0), 0)
  have hexport : export_inventory_batch fs month stock salesByDay =
      (⟨fs.main.setSheet (get_sheet_name month)
          (dailyPure (get_layout month) salesByDay
            (stockPure (get_layout month) stock
              (clearRegionExport (get_layout month) ws0))),
        fs.main :: fs.backups⟩, .ok n) := by
    simp only [export_inventory_batch, create_backup, hsheet,
      writeStockFold_ok hiF haF, hdaily]
  have hEnotday : ∀ (r c : ℕ), c < (get_layout month).daily_start_col →
      ∀ p ∈ salesByDay, ∀ s ∈ p.2,
        (s.row, (get_layout month).dayCol p.1) ≠ (r, c) := by
    intro r c hc p hp s hs hpair
    have h1 := (hdays p hp).1
    have hge := dayCol_ge (L := get_layout month) h1
    have hsnd := congrArg Prod.snd hpair
    simp only [] at hsnd
    omega
  refine ⟨n, readInventorySheet month
    (dailyPure (get_layout month) salesByDay
      (stockPure (get_layout month) stock
        (clearRegionExport (get_layout month) ws0))), by rw [hexport], ?_, ?_⟩
  · rw [hexport]
    show read_inventory (fs.main.setSheet (get_sheet_name month) _) month = _
    unfold read_inventory
    simp only [get?_setSheet hsheet]
  · intro e he
    have herow := hstock_rows e he
    obtain ⟨idstr, t, hcell1, htostr, hlab1, hlab2⟩ := hid e he
    have hc1 : (dailyPure (get_layout month) salesByDay
        (stockPure (get_layout month) stock
          (clearRegionExport (get_layout month) ws0))).cell e.row INV_SIZE_COL =
        .str idstr := by
      rw [dailyPure_cell_other (hEnotday e.row INV_SIZE_COL
        (by simp only [INV_SIZE_COL]; omega))]
      rw [stockPure_cell_othercol (by simp only [INV_SIZE_COL]; omega)
        (by simp only [INV_SIZE_COL]; omega)]
      rw [clearRegionExport_cell, if_neg ?_]
      · exact hcell1
      · rintro ⟨-, hcc⟩
        rcases hcc with h | h | h
        · simp only [INV_SIZE_COL] at h; omega
        · simp only [INV_SIZE_COL] at h; omega
        · rw [SheetLayout.dailyCols, List.mem_range'_1] at h
          simp only [INV_SIZE_COL] at h
          omega
    have hrec : ∃ rec : TyreRow,
        readInventoryRow (get_layout month)
          (dailyPure (get_layout month) salesByDay
            (stockPure (get_layout month) stock
              (clearRegionExport (get_layout month) ws0))) e.row = some rec ∧
        rec.row = e.row ∧
        rec.initial_stock = toInt
          ((dailyPure (get_layout month) salesByDay
            (stockPure (get_layout month) stock
              (clearRegionExport (get_layout month) ws0))).cell e.row
            (get_layout month).initial_stock_col) 0 ∧
        rec.added_stock = toInt
          ((dailyPure (get_layout month) salesByDay
            (stockPure (get_layout month) stock
              (clearRegionExport (get_layout month) ws0))).cell e.row
            (get_layout month).added_stock_col) 0 ∧
        rec.daily_sales = readDailySales (get_layout month)
          (dailyPure (get_layout month) salesByDay
            (stockPure (get_layout month) stock
              (clearRegionExport (get_layout month) ws0))) e.row := by
      unfold readInventoryRow
      simp only [hc1, htostr]
      rw [if_neg (not_or.mpr ⟨hlab1, hlab2⟩)]
      exact ⟨_, rfl, rfl, rfl, rfl, rfl⟩
    obtain ⟨rec, hrecq, hrow, hinit, hadded, hdailyrec⟩ := hrec
    refine ⟨rec, ?_, hrow, ?_, ?_, ?_⟩
    · unfold readInventorySheet
      refine List.mem_filterMap.mpr ⟨e.row, ?_, hrecq⟩
      unfold dataRows
      rw [List.mem_range'_1]
      simp only [DATA_START_ROW, DATA_END_ROW]
      omega
    · rw [hinit]
      have hcell : (dailyPure (get_layout month) salesByDay
          (stockPure (get_layout month) stock
            (clearRegionExport (get_layout month) ws0))).cell e.row
            (get_layout month).initial_stock_col = .num (e.initial_stock : ℚ) := by
        rw [dailyPure_cell_other (hEnotday e.row _ hilt)]
        obtain ⟨w', hw'⟩ := stockPure_cell_entry he hstock_nodup
          (clearRegionExport (get_layout month) ws0)
          (get_layout month).initial_stock_col
        rw [hw', stockStep_cell_init hne,
          if_pos (by have := (hstock_pos e he).1; omega)]
      rw [hcell, toInt_num_int]
    · rw [hadded]
      have hcell : (dailyPure (get_layout month) salesByDay
          (stockPure (get_layout month) stock
            (clearRegionExport (get_layout month) ws0))).cell e.row
            (get_layout month).added_stock_col = .num (e.added_stock : ℚ) := by
        rw [dailyPure_cell_other (hEnotday e.row _ halt)]
        obtain ⟨w', hw'⟩ := stockPure_cell_entry he hstock_nodup
          (clearRegionExport (get_layout month) ws0)
          (get_layout month).added_stock_col
        rw [hw', stockStep_cell_added hne,
          if_pos (by have := (hstock_pos e he).2; omega)]
      rw [hcell, toInt_num_int]
    · intro d
      rw [hdailyrec, dayLookup_readDailySales]
      by_cases hdr : 1 ≤ d ∧ d ≤ 31
      · rw [if_pos hdr]
        unfold dayQty
        rcases hfind : salesByDay.find? (fun p => p.1 = d) with - | p
        · have hnone : ∀ q ∈ salesByDay, ¬(q.1 = d) := by
            intro q hq hqd
            have := List.find?_eq_none.mp hfind q hq
            simp [hqd] at this
          have hcell : (dailyPure (get_layout month) salesByDay
              (stockPure (get_layout month) stock
                (clearRegionExport (get_layout month) ws0))).cell e.row
                ((get_layout month).dayCol d) = CellValue.none := by
            rw [dailyPure_cell_other ?hB, stockPure_cell_othercol ?h1 ?h2,
              clearRegionExport_cell, if_pos ?h3]
            case hB =>
              intro q hq s hs hpair
              have hsnd := congrArg Prod.snd hpair
              simp only [] at hsnd
              exact hnone q hq (dayCol_inj (hdays q hq).1 hdr.1 hsnd)
            case h1 =>
              have := dayCol_ge (L := get_layout month) hdr.1
              omega
            case h2 =>
              have := dayCol_ge (L := get_layout month) hdr.1
              omega
            case h3 =>
              refine ⟨?_, Or.inr (Or.inr (dayCol_mem_dailyCols hdr.1 hdr.2 hend))⟩
              unfold dataRows
              rw [List.mem_range'_1]
              simp only [DATA_START_ROW, DATA_END_ROW]
              omega
          simp only [hfind, hcell]
          rw [show toInt CellValue.none 0 = 0 from rfl,
            if_neg (by decide)]
        · have hpd : p.1 = d := by
            have := List.find?_some hfind
            simpa using this
          have hpmem := List.mem_of_find?_eq_some hfind
          simp only [hfind]
          rcases hfind2 : p.2.find? (fun s => s.row = e.row) with - | s
          · have hnorow : ∀ s ∈ p.2, ¬(s.row = e.row) := by
              intro s hs h'
              have := List.find?_eq_none.mp hfind2 s hs
              simp [h'] at this
            have hcell : (dailyPure (get_layout month) salesByDay
                (stockPure (get_layout month) stock
                  (clearRegionExport (get_layout month) ws0))).cell e.row
                  ((get_layout month).dayCol d) = CellValue.none := by
              rw [dailyPure_cell_other ?hB, stockPure_cell_othercol ?h1 ?h2,
                clearRegionExport_cell, if_pos ?h3]
              case hB =>
                intro q hq s hs hpair
                have hsnd := congrArg Prod.snd hpair
                have hfst := congrArg Prod.fst hpair
                simp only [] at hsnd hfst
                have hq1 : q.1 = d := dayCol_inj (hdays q hq).1 hdr.1 hsnd
                have hqp : q = p := eq_of_key_nodup hdays_nodup hq hpmem
                  (by rw [hq1, hpd])
                exact hnorow s (hqp ▸ hs) hfst
              case h1 =>
                have := dayCol_ge (L := get_layout month) hdr.1
                omega
              case h2 =>
                have := dayCol_ge (L := get_layout month) hdr.1
                omega
              case h3 =>
                refine ⟨?_, Or.inr (Or.inr (dayCol_mem_dailyCols hdr.1 hdr.2 hend))⟩
                unfold dataRows
                rw [List.mem_range'_1]
                simp only [DATA_START_ROW, DATA_END_ROW]
                omega
            rw [hfind2, hcell]
            rw [show toInt CellValue.none 0 = 0 from rfl, if_neg (by decide)]
            rfl
          · have hsrow : s.row = e.row := by
              have := List.find?_some hfind2
              simpa using this
            have hsmem := List.mem_of_find?_eq_some hfind2
            have hppair : ((d, p.2) : ℕ × List SaleEntry) ∈ salesByDay := by
              rw [← hpd, Prod.mk.eta]
              exact hpmem
            have hq : 0 < s.qty := hsale_pos p hpmem s hsmem
            have hcell : (dailyPure (get_layout month) salesByDay
                (stockPure (get_layout month) stock
                  (clearRegionExport (get_layout month) ws0))).cell e.row
                  ((get_layout month).dayCol d) = qtyCell s.qty := by
              rw [← hsrow]
              exact dailyPure_cell_hit hppair hsmem hdays_nodup
                (hsale_nodup p hpmem) hdr.1 (fun q hq' => (hdays q hq').1) _
            rw [hfind2, hcell,
              show qtyCell s.qty = .num (s.qty : ℚ) from by
                unfold qtyCell
                rw [if_neg (by omega)],
              toInt_num_int, if_pos hq]
            rfl
      · rw [if_neg hdr]
        unfold dayQty
        have hfind : salesByDay.find? (fun p => p.1 = d) = Option.none := by
          rw [List.find?_eq_none]
          intro q hq
          have := hdays q hq
          simp only [decide_eq_true_eq]
          omega
        simp only [hfind]

/-- Concrete inventory sheet for the round-trip witness: the month-1
sheet with size label `185/65R15` in the data row 2. -/
def roundtripSheet : Sheet :=
  Sheet.set emptySheet 2 INV_SIZE_COL (.str "185/65R15")

/-- Filesystem holding only the month-1 sheet above. -/
def roundtripFS : FS := ⟨[(get_sheet_name 1, roundtripSheet)], []⟩

/-- Witness for C4 at a concrete instance: one stock row (row 2,
initial 5, added 3) and one sale (day 5, row 2, qty 2) exported to a
file whose month-1 sheet labels row 2 `185/65R15`; every hypothesis of
the round-trip theorem holds here. -/
theorem export_import_roundtrip_witness :
    ∃ (n : ℕ) (recs : List TyreRow),
      (export_inventory_batch roundtripFS 1
        [⟨2, 5, 3⟩] [(5, [⟨2, 2⟩])]).2 = .ok n ∧
      read_inventory (export_inventory_batch roundtripFS 1
        [⟨2, 5, 3⟩] [(5, [⟨2, 2⟩])]).1.main 1 = .ok recs ∧
      ∀ e ∈ [(⟨2, 5, 3⟩ : StockEntry)], ∃ rec ∈ recs,
        rec.row = e.row ∧
        rec.initial_stock = e.initial_stock ∧
        rec.added_stock = e.added_stock ∧
        ∀ d : ℕ, dayLookup rec.daily_sales d =
          dayQty [(5, [⟨2, 2⟩])] e.row d := by
  refine export_import_roundtrip roundtripFS 1 roundtripSheet _ _ rfl
    (by decide) (by decide) (by decide) (by decide) (by decide)
    (by decide) (by decide) (by decide) ?_
  intro e he
  have he' : e = ⟨2, 5, 3⟩ := by simpa using he
  subst he'
  exact ⟨"185/65R15", "185/65R15", rfl, by decide, by decide, by decide⟩

end TradeSystem

